import Mathlib

/-!
Formal verification development for the `ranger` range-orchestrator repository.

The repository contains two generations of code:

* an older generation in package `ranje` (`pkg/ranje/keyspace.go`,
  `DurablePlacement`, `pkg/reconciler/reconciler.go`), using states
  `Ready`/`Splitting`/`Joining` for ranges and `SpPending`/.../`SpDropped`
  for placements, and
* the orchestrator generation (`orchestrator.go` and its tests, the SQL
  persister), using `RsActive`/`RsSubsuming`/`RsObsolete` and
  `PsPending`/.../`PsDropped`.

The vocabulary mapping between the spec and the older generation is
`Active ≙ Ready`, `Subsuming ≙ Splitting / Joining` (the spec consolidates
the two), and for placements `Active ≙ SpReady`, `Inactive ≙ SpTaken`.

Sections below embed, in order: the old-generation placement state machine
(`DurablePlacement.ToState`), the old-generation keyspace operations
(`DoSplit`, `JoinTwo`), the reconciler, the SQL persister, and finally an
executable model of the orchestrator tick loop.  Functions whose source is
present in the repository are translated line by line; collaborators that
are only visible through their callers and tests are modelled from the
spec and are marked `Modelled from the spec:` in their doc comments.
-/

set_option linter.unusedVariables false
set_option linter.unnecessarySeqFocus false

/- ============================================================== -/
/- Old-generation `ranje` package: placement states               -/
/- ============================================================== -/

/-- Placement states of the old-generation `ranje` package
(`SpPending`, `SpFetching`, ... as used by `DurablePlacement.ToState` and
the reconciler). `SpGone` appears in `reconciler.go`. -/
inductive StatePlacement where
  | SpUnknown
  | SpPending
  | SpFetching
  | SpFetched
  | SpFetchFailed
  | SpReady
  | SpTaken
  | SpDropped
  | SpGone
deriving DecidableEq

/-- The mutable fields of `ranje.DurablePlacement` that `ToState` touches:
the controller-side state and the node id (which is cleared on entering
`SpDropped`). -/
structure DurablePlacement where
  state : StatePlacement
  nodeID : String
deriving DecidableEq

/-- Result of `DurablePlacement.ToState`: success with the updated
placement, an error together with the placement contents after the failed
call (the Go method returns an `error` while the receiver keeps whatever
mutations were not rolled back), or a panic (two transitions in the source
are `panic("not implemented")`). -/
inductive ToStateResult where
  | ok (p : DurablePlacement)
  | err (p : DurablePlacement) (msg : String)
  | panicked (msg : String)
deriving DecidableEq

/-- Embedding of `DurablePlacement.ToState`. `persistOk` stands for the
outcome of `p.rang.Put()`: the write-through persistence call, which the
source performs after setting the new state, rewinding `p.State` (but not
`p.NodeID`) if it fails. -/
def DurablePlacement.toState (p : DurablePlacement) (new : StatePlacement)
    (persistOk : Bool) : ToStateResult :=
  let old := p.state
  if new = StatePlacement.SpUnknown then
    ToStateResult.err p "cannot transition placement into SpUnknown"
  else if old = StatePlacement.SpDropped then
    ToStateResult.err p "cannot transition placement out of SpDropped"
  else if old = StatePlacement.SpFetching ∧ new = StatePlacement.SpFetchFailed then
    ToStateResult.panicked "placement state transition not implemented: fetching to fetch_failed"
  else if old = StatePlacement.SpFetchFailed ∧ new = StatePlacement.SpPending then
    ToStateResult.panicked "placement state transition not implemented: fetch_failed to pending"
  else
    -- (ok flag, receiver after the pre-persist mutations): the
    -- `SpTaken -> SpDropped` arm clears NodeID before persisting.
    let step : Bool × DurablePlacement :=
      if old = StatePlacement.SpPending ∧
          (new = StatePlacement.SpFetching ∨ new = StatePlacement.SpReady) then
        (true, p)
      else if old = StatePlacement.SpFetching ∧ new = StatePlacement.SpFetched then
        (true, p)
      else if old = StatePlacement.SpFetched ∧ new = StatePlacement.SpReady then
        (true, p)
      else if old = StatePlacement.SpReady ∧ new = StatePlacement.SpTaken then
        (true, p)
      else if old = StatePlacement.SpTaken ∧ new = StatePlacement.SpDropped then
        (true, { p with nodeID := "" })
      else if old = StatePlacement.SpTaken ∧ new = StatePlacement.SpReady then
        (true, p)
      else
        (false, p)
    if step.1 then
      if persistOk then
        ToStateResult.ok { step.2 with state := new }
      else
        ToStateResult.err { step.2 with state := old } "while persisting placement"
    else
      ToStateResult.err p "invalid placement state transition"

/- ============================================================== -/
/- Old-generation `ranje` package: keyspace (DoSplit, JoinTwo)    -/
/- ============================================================== -/

/-- Range states of the old-generation `ranje` package (`StateLocal`).
`Unknown` models the Go zero value, which newly allocated ranges from
`Keyspace.Range()` carry until a state is assigned. -/
inductive StateLocal where
  | Unknown
  | Pending
  | Ready
  | Quarantined
  | Splitting
  | Joining
  | Obsolete
deriving DecidableEq

/-- The fields of the old-generation `ranje.Range` that `DoSplit` and
`JoinTwo` read or write.  Pointers between ranges (`parents`, `children`)
are represented by range idents (the `Key` part; the `Scope` is always
empty in this code path). -/
structure RangeO where
  ident : Nat
  startK : String
  endK : String
  state : StateLocal
  parents : List Nat
  children : List Nat
  placements : List DurablePlacement
deriving DecidableEq

/-- The old-generation `ranje.Keyspace`: the ordered list of ranges and
the next ident handed out by `Keyspace.Range()`. -/
structure KeyspaceO where
  ranges : List RangeO
  nextIdent : Nat
deriving DecidableEq

/-- Modelled from the spec: `Range.Contains` is not under `src/`; the
node-side `RangeMeta.Contains` in the same repository and the spec agree
that a range covers the half-open interval `[start, end)` where the zero
key (the empty string) is the minus and plus infinity sentinel for the
start and end respectively. -/
def RangeO.contains (r : RangeO) (k : String) : Bool :=
  (r.startK = "" ∨ r.startK ≤ k) ∧ (r.endK = "" ∨ k < r.endK)

/-- Modelled from the spec: `Range.ToState` is not under `src/`.  The
spec's range state machine moves `Active` (old name `Ready`) to
`Subsuming` (old names `Splitting` and `Joining`) on split and join; no
other transition is requested by the embedded keyspace code. -/
def toStateLocalOk (old new : StateLocal) : Bool :=
  (old = StateLocal.Ready ∧ new = StateLocal.Splitting) ∨
  (old = StateLocal.Ready ∧ new = StateLocal.Joining)

/-- Replace the first range with the given ident. -/
def updateRange (rs : List RangeO) (rid : Nat) (f : RangeO → RangeO) : List RangeO :=
  match rs with
  | [] => []
  | r :: rest =>
    if r.ident = rid then f r :: rest else r :: updateRange rest rid f

/-- Find a range by ident (the Go caller holds a pointer into the list). -/
def findRange (ks : KeyspaceO) (rid : Nat) : Option RangeO :=
  ks.ranges.find? (·.ident = rid)

/-- Embedding of `Keyspace.DoSplit`.  The Go method mutates the keyspace
in place and returns an `error`; here the pair carries the keyspace after
the call and the error, so that "failure leaves the state unchanged" is a
provable statement rather than an artifact of purity. -/
def doSplit (ks : KeyspaceO) (rid : Nat) (k : String) : KeyspaceO × Option String :=
  match findRange ks rid with
  | none => (ks, some "no such range")
  | some r =>
    if k = "" then
      (ks, some "cannot split on zero key")
    else if ¬(r.state = StateLocal.Ready) then
      (ks, some "cannot split non-ready range")
    else if ¬(r.children = []) then
      (ks, some "range already has children")
    else if ¬(r.contains k = true) then
      (ks, some "range does not contain key")
    else if k = r.startK then
      (ks, some "range starts with key")
    else if ¬(toStateLocalOk r.state StateLocal.Splitting = true) then
      (ks, some "invalid range state transition")
    else
      let one : RangeO :=
        { ident := ks.nextIdent, startK := r.startK, endK := k,
          state := StateLocal.Unknown, parents := [rid], children := [],
          placements := [] }
      let two : RangeO :=
        { ident := ks.nextIdent + 1, startK := k, endK := r.endK,
          state := StateLocal.Unknown, parents := [rid], children := [],
          placements := [] }
      let rs' := updateRange ks.ranges rid
        (fun rr => { rr with state := StateLocal.Splitting,
                             children := [one.ident, two.ident] })
      ({ ranges := rs' ++ [one, two], nextIdent := ks.nextIdent + 2 }, none)

/-- The per-range precondition loop at the top of `Keyspace.JoinTwo`:
reject non-ready ranges and ranges that already have children. -/
def joinPrecheck (r : RangeO) : Option String :=
  if ¬(r.state = StateLocal.Ready) then
    some "cannot join non-ready ranges"
  else if ¬(r.children = []) then
    some "range already has children"
  else
    none

/-- Embedding of `Keyspace.JoinTwo`.  Returns the keyspace after the call,
the error if any, and the ident of the new (joined) range on success.
The source transitions `one` and then `two` to `Joining` in a loop with no
rollback, so the embedding likewise applies the first transition before
attempting the second. -/
def joinTwo (ks : KeyspaceO) (ridOne ridTwo : Nat) :
    KeyspaceO × Option String × Option Nat :=
  match findRange ks ridOne, findRange ks ridTwo with
  | none, _ => (ks, some "no such range", none)
  | some _, none => (ks, some "no such range", none)
  | some one, some two =>
    match joinPrecheck one with
    | some e => (ks, some e, none)
    | none =>
      match joinPrecheck two with
      | some e => (ks, some e, none)
      | none =>
        if ¬(one.endK = two.startK) then
          (ks, some "not adjacent", none)
        else
          -- `for _, r := range []*Range{one, two} { r.ToState(Joining) }`
          if ¬(toStateLocalOk one.state StateLocal.Joining = true) then
            (ks, some "invalid range state transition", none)
          else
            let rs1 := updateRange ks.ranges ridOne
              (fun rr => { rr with state := StateLocal.Joining })
            if ¬(toStateLocalOk two.state StateLocal.Joining = true) then
              -- `one` has already been mutated; the source does not roll
              -- this back before returning the error.
              ({ ks with ranges := rs1 }, some "invalid range state transition", none)
            else
              let rs2 := updateRange rs1 ridTwo
                (fun rr => { rr with state := StateLocal.Joining })
              let three : RangeO :=
                { ident := ks.nextIdent, startK := one.startK, endK := two.endK,
                  state := StateLocal.Unknown, parents := [ridOne, ridTwo],
                  children := [], placements := [] }
              let rs3 := updateRange rs2 ridOne
                (fun rr => { rr with children := [three.ident] })
              let rs4 := updateRange rs3 ridTwo
                (fun rr => { rr with children := [three.ident] })
              ({ ranges := rs4 ++ [three], nextIdent := ks.nextIdent + 1 },
               none, some three.ident)

/- ============================================================== -/
/- Reconciler (`pkg/reconciler/reconciler.go`)                    -/
/- ============================================================== -/

/-- The old-generation `ranje.Ident`: a scope string and a numeric key. -/
structure IdentO where
  scope : String
  key : Nat
deriving DecidableEq

/-- Remote placement states as reported by nodes (old generation). -/
inductive RemoteStateO where
  | StateUnknown
  | StateFetching
  | StateFetched
  | StateFetchFailed
  | StateReady
  | StateTaken
deriving DecidableEq

/-- `ranje.PBNID` as read by the reconciler: an expected placement of a
range on the probed node, with its position in the range's placement list
(position 0 is the primary) and its controller-side state. -/
structure PBNID where
  ident : IdentO
  placementState : StatePlacement
  position : Nat
deriving DecidableEq

/-- `roster.RangeInfo` as read by the reconciler: a placement reported by
the node. -/
structure RangeInfoO where
  ident : IdentO
  state : RemoteStateO
deriving DecidableEq

/-- `roster.NodeInfo`: one probe response. -/
structure NodeInfoO where
  nodeID : String
  expired : Bool
  ranges : List RangeInfoO

/-- The last element of a list matching a predicate: Go's
`states[rID] = r` map writes let the last write for an ident win. -/
def lastWith {α : Type} (p : α → Bool) (l : List α) : Option α :=
  (l.filter p).getLast?

/-- The per-entry body of the reconciler loop in `Reconciler.nodeInfo`:
given the expected placement (if any) and the reported placement (if any)
for one range ident, the state the reconciler moves the placement to, if
any.  `conv` is `roster.RangeInfo.State.ToStatePlacement`, which is not
under `src/`, so it is kept abstract as an argument. -/
def reconcilePair (conv : RemoteStateO → StatePlacement)
    (expected : Option PBNID) (actual : Option RangeInfoO) :
    Option StatePlacement :=
  match expected, actual with
  | some e, some a =>
    -- divergence: accept the remote state
    if e.placementState ≠ conv a.state then some (conv a.state) else none
  | some e, none =>
    -- expected but unreported: mark gone, only for the primary and only
    -- once it has left SpPending
    if e.position = 0 ∧ e.placementState ≠ StatePlacement.SpPending then
      some StatePlacement.SpGone
    else
      none
  | none, some _ => none
  | none, none => none

/-- Embedding of `Reconciler.nodeInfo`.  The Go code materialises a map
from range ident to the (expected, actual) pair and then walks it; the
embedding computes, for each ident appearing on either side, the pair via
last-write-wins lookup and collects the state-change directives the
reconciler issues through `ks.PlacementToState`.  Go map iteration order
is not observable in the directives beyond permutation, so the idents are
walked in first-appearance order.  Returns `none` for the panic on an
expired node that still reports ranges. -/
def nodeInfoDecisions (conv : RemoteStateO → StatePlacement)
    (expected : List PBNID) (nInfo : NodeInfoO) :
    Option (List (IdentO × StatePlacement)) :=
  if nInfo.expired ∧ nInfo.ranges ≠ [] then
    none
  else
    let idents := (expected.map (·.ident) ++ nInfo.ranges.map (·.ident)).dedup
    some <| idents.filterMap fun i =>
      (reconcilePair conv
        (lastWith (·.ident = i) expected)
        (lastWith (·.ident = i) nInfo.ranges)).map fun s => (i, s)

/- ============================================================== -/
/- SQL persister (`pkg/persister/sql`)                            -/
/- ============================================================== -/

/-- Range states of the orchestrator generation (`api.RangeState`). -/
inductive RangeStateN where
  | RsUnknown
  | RsActive
  | RsSubsuming
  | RsObsolete
deriving DecidableEq

/-- Placement states of the orchestrator generation
(`api.PlacementState`). -/
inductive PlacementStateN where
  | PsUnknown
  | PsPending
  | PsInactive
  | PsActive
  | PsGiveUp
  | PsMissing
  | PsDropped
deriving DecidableEq

/-- The Go `String()` form of a range state, as written to the `range`
table by `PutRanges`. -/
def RangeStateN.str : RangeStateN → String
  | RangeStateN.RsUnknown => "RsUnknown"
  | RangeStateN.RsActive => "RsActive"
  | RangeStateN.RsSubsuming => "RsSubsuming"
  | RangeStateN.RsObsolete => "RsObsolete"

/-- Embedding of `parseRangeStateString` (unknown strings fall back to
`RsUnknown`). -/
def parseRangeStateString (s : String) : RangeStateN :=
  if s = "RsActive" then RangeStateN.RsActive
  else if s = "RsSubsuming" then RangeStateN.RsSubsuming
  else if s = "RsObsolete" then RangeStateN.RsObsolete
  else RangeStateN.RsUnknown

/-- The Go `String()` form of a placement state. -/
def PlacementStateN.str : PlacementStateN → String
  | PlacementStateN.PsUnknown => "PsUnknown"
  | PlacementStateN.PsPending => "PsPending"
  | PlacementStateN.PsInactive => "PsInactive"
  | PlacementStateN.PsActive => "PsActive"
  | PlacementStateN.PsGiveUp => "PsGiveUp"
  | PlacementStateN.PsMissing => "PsMissing"
  | PlacementStateN.PsDropped => "PsDropped"

/-- Embedding of `parsePlacementStateString` (unknown strings, including
`"PsGiveUp"`, fall back to `PsUnknown`). -/
def parsePlacementStateString (s : String) : PlacementStateN :=
  if s = "PsPending" then PlacementStateN.PsPending
  else if s = "PsInactive" then PlacementStateN.PsInactive
  else if s = "PsActive" then PlacementStateN.PsActive
  else if s = "PsMissing" then PlacementStateN.PsMissing
  else if s = "PsDropped" then PlacementStateN.PsDropped
  else PlacementStateN.PsUnknown

/-- `ranje.Placement` as persisted: the three columns of the `placement`
table. -/
structure PlacementP where
  nodeID : String
  stateCurrent : PlacementStateN
  stateDesired : PlacementStateN
deriving DecidableEq

/-- `ranje.Range` as persisted by `PutRanges` and rebuilt by `GetRanges`:
ident, key interval, state, parent and child idents, and placements. -/
structure RangeP where
  ident : Nat
  startK : String
  endK : String
  state : RangeStateN
  parents : List Nat
  children : List Nat
  placements : List PlacementP
deriving DecidableEq

/-- A row of the `range` table. -/
structure RangeRow where
  id : Nat
  startK : String
  endK : String
  state : String
deriving DecidableEq

/-- A row of the `placement` table. -/
structure PlacementRow where
  rangeId : Nat
  nodeId : String
  stateCurrent : String
  stateDesired : String
deriving DecidableEq

/-- The backing store: the three tables of the schema in `sql.go` /
`sql_test.go`.  Rows are kept in insertion order (sqlite returns them in
rowid order for these queries). -/
structure DB where
  rangeRows : List RangeRow
  childRows : List (Nat × Nat)
  placementRows : List PlacementRow
deriving DecidableEq

/-- The empty database (fresh `freshTestDB`). -/
def emptyDB : DB := { rangeRows := [], childRows := [], placementRows := [] }

/-- `INSERT INTO range ...`: `id` is the primary key, duplicate inserts
fail. -/
def insertRangeRow (db : DB) (row : RangeRow) : Option DB :=
  if db.rangeRows.any (·.id = row.id) then none
  else some { db with rangeRows := db.rangeRows ++ [row] }

/-- `INSERT INTO child ...`: `(parentId, childId)` is the primary key. -/
def insertChildRow (db : DB) (pc : Nat × Nat) : Option DB :=
  if db.childRows.any (· = pc) then none
  else some { db with childRows := db.childRows ++ [pc] }

/-- `INSERT INTO placement ...`: `(rangeId, nodeId)` is the primary key. -/
def insertPlacementRow (db : DB) (row : PlacementRow) : Option DB :=
  if db.placementRows.any (fun q => q.rangeId = row.rangeId ∧ q.nodeId = row.nodeId)
  then none
  else some { db with placementRows := db.placementRows ++ [row] }

/-- The row `PutRanges` writes to the `range` table for one range. -/
def rangeRowOf (r : RangeP) : RangeRow :=
  { id := r.ident, startK := r.startK, endK := r.endK, state := r.state.str }

/-- The row `PutRanges` writes to the `placement` table for one placement
of the range with ident `rid`. -/
def placementRowOf (rid : Nat) (p : PlacementP) : PlacementRow :=
  { rangeId := rid, nodeId := p.nodeID,
    stateCurrent := p.stateCurrent.str, stateDesired := p.stateDesired.str }

/-- The inserts `PutRanges` performs for one range: the range row, one
child row per recorded parent link, one per recorded child link, and one
placement row per placement. -/
def putOneRange (db : DB) (r : RangeP) : Option DB := do
  let db ← insertRangeRow db (rangeRowOf r)
  let db ← r.parents.foldlM (fun d pid => insertChildRow d (pid, r.ident)) db
  let db ← r.children.foldlM (fun d cid => insertChildRow d (r.ident, cid)) db
  r.placements.foldlM (fun d p => insertPlacementRow d (placementRowOf r.ident p)) db

/-- Embedding of `Persister.PutRanges`: all inserts run in one
transaction; any failure rolls the whole transaction back (`none`). -/
def putRanges (db : DB) (ranges : List RangeP) : Option DB :=
  ranges.foldlM putOneRange db

/-- Embedding of `Persister.GetParents`. -/
def getParents (db : DB) (childId : Nat) : List Nat :=
  (db.childRows.filter (·.2 = childId)).map (·.1)

/-- Embedding of `Persister.GetChildren`. -/
def getChildren (db : DB) (parentId : Nat) : List Nat :=
  (db.childRows.filter (·.1 = parentId)).map (·.2)

/-- Embedding of `Persister.GetPlacements`. -/
def getPlacements (db : DB) (rangeId : Nat) : List PlacementP :=
  (db.placementRows.filter (·.rangeId = rangeId)).map fun row =>
    { nodeID := row.nodeId,
      stateCurrent := parsePlacementStateString row.stateCurrent,
      stateDesired := parsePlacementStateString row.stateDesired }

/-- Embedding of `Persister.GetRanges`: read every range row, then fill in
parents, children and placements from the other two tables. -/
def getRanges (db : DB) : List RangeP :=
  db.rangeRows.map fun row =>
    { ident := row.id, startK := row.startK, endK := row.endK,
      state := parseRangeStateString row.state,
      parents := getParents db row.id,
      children := getChildren db row.id,
      placements := getPlacements db row.id }

/-- A keyspace constructed through `Keyspace.Range()` hands out idents
below `nextIdent`. -/
def identsFresh (ks : KeyspaceO) : Prop :=
  ∀ rr ∈ ks.ranges, rr.ident < ks.nextIdent

/-- The range used by the C4 counterexample and witness: `Ready`, no
children, and a single placement that is still `SpFetching`. -/
def rC4 : RangeO :=
  { ident := 1, startK := "", endK := "", state := StateLocal.Ready,
    parents := [], children := [],
    placements := [{ state := StatePlacement.SpFetching, nodeID := "node-a" }] }

/-- A one-range keyspace whose only placement is still fetching: the
concrete input for the C4 counterexample and witness. -/
def ksC4 : KeyspaceO := { ranges := [rC4], nextIdent := 2 }

/-- The two adjacent ready ranges for the C5 witness. -/
def ksC5 : KeyspaceO :=
  { ranges := [{ ident := 1, startK := "", endK := "ggg",
                 state := StateLocal.Ready, parents := [], children := [],
                 placements := [] },
               { ident := 2, startK := "ggg", endK := "",
                 state := StateLocal.Ready, parents := [], children := [],
                 placements := [] }],
    nextIdent := 3 }

/-- Link-free ranges for the C6 witness. -/
def rpW1 : RangeP :=
  { ident := 1, startK := "", endK := "m", state := RangeStateN.RsActive,
    parents := [], children := [],
    placements := [{ nodeID := "aaa", stateCurrent := PlacementStateN.PsActive,
                     stateDesired := PlacementStateN.PsActive },
                   { nodeID := "bbb", stateCurrent := PlacementStateN.PsPending,
                     stateDesired := PlacementStateN.PsInactive }] }

/-- Second link-free range for the C6 witness. -/
def rpW2 : RangeP :=
  { ident := 2, startK := "m", endK := "", state := RangeStateN.RsSubsuming,
    parents := [], children := [], placements := [] }

/-- A parent range recording no link. -/
def rpA : RangeP :=
  { ident := 1, startK := "", endK := "", state := RangeStateN.RsActive,
    parents := [], children := [], placements := [] }

/-- A child range recording its parent link. -/
def rpB : RangeP :=
  { ident := 2, startK := "", endK := "", state := RangeStateN.RsActive,
    parents := [1], children := [], placements := [] }

/-- The parent range recording its child link. -/
def rpC : RangeP :=
  { ident := 1, startK := "", endK := "", state := RangeStateN.RsActive,
    parents := [], children := [2], placements := [] }

/- ============================================================== -/
/- Orchestrator model: types                                      -/
/- ============================================================== -/

/-- `api.Action`: the four node-side actions the actuator can send.
`Activate`/`Deactivate` appear as `Serve`/`Take` in older test code. -/
inductive ActionA where
  | Prepare
  | Activate
  | Deactivate
  | Drop
deriving DecidableEq

/-- `api.RemoteState`: the node-side placement states reported to the
roster. -/
inductive RemoteStateN where
  | NsUnknown
  | NsPreparing
  | NsInactive
  | NsActivating
  | NsActive
  | NsDeactivating
  | NsDropping
  | NsNotFound
deriving DecidableEq

/-- `ranje.Placement` of the orchestrator generation, restricted to the
fields the tick loop reads and writes.  `isReplacing` is the node id of
the placement being taken over (empty when none).  The four counters are
the per-action failure counts kept by the actuator; `Failed(a)` is
`fails a ≥ maxFailures`.  `onReady` models the operator error channel
closed when this placement first activates (`Placement.OnReady`). -/
structure PlacementR where
  nodeID : String
  stateCurrent : PlacementStateN
  stateDesired : PlacementStateN
  isReplacing : String
  failsPrepare : Nat
  failsActivate : Nat
  failsDeactivate : Nat
  failsDrop : Nat
  onReady : Option Nat
deriving DecidableEq

/-- A fresh placement as created by `Range.NewPlacement`. -/
def newPlacement (nID : String) : PlacementR :=
  { nodeID := nID, stateCurrent := PlacementStateN.PsPending,
    stateDesired := PlacementStateN.PsPending, isReplacing := "",
    failsPrepare := 0, failsActivate := 0, failsDeactivate := 0,
    failsDrop := 0, onReady := none }

/-- Per-action failure count. -/
def PlacementR.fails (p : PlacementR) : ActionA → Nat
  | ActionA.Prepare => p.failsPrepare
  | ActionA.Activate => p.failsActivate
  | ActionA.Deactivate => p.failsDeactivate
  | ActionA.Drop => p.failsDrop

/-- Modelled from the spec: `maxFailures` per action is three. -/
def maxFailures : Nat := 3

/-- `Placement.Failed(action)`: the action has been attempted and failed
`maxFailures` times. -/
def PlacementR.failed (p : PlacementR) (a : ActionA) : Bool :=
  maxFailures ≤ p.fails a

/-- Increment one failure counter. -/
def PlacementR.addFail (p : PlacementR) : ActionA → PlacementR
  | ActionA.Prepare => { p with failsPrepare := p.failsPrepare + 1 }
  | ActionA.Activate => { p with failsActivate := p.failsActivate + 1 }
  | ActionA.Deactivate => { p with failsDeactivate := p.failsDeactivate + 1 }
  | ActionA.Drop => { p with failsDrop := p.failsDrop + 1 }

/-- `ranje.Range` of the orchestrator generation: ident, half-open key
interval (empty string is the infinity sentinel on either end), range
state, parent links, child links, placements, and the operator callback
fired when the range becomes obsolete (`Range.OnObsolete`). -/
structure RangeR where
  ident : Nat
  startK : String
  endK : String
  state : RangeStateN
  parents : List Nat
  children : List Nat
  placements : List PlacementR
  onObsolete : Option Nat
deriving DecidableEq

/-- `keyspace.Keyspace`: the ordered range list plus the next ident. -/
structure KeyspaceR where
  ranges : List RangeR
  nextIdent : Nat
deriving DecidableEq

/-- A roster node: ident, the placements it reports (range ident and
remote state), and the drain flag. -/
structure NodeR where
  ident : String
  ranges : List (Nat × RemoteStateN)
  wantDrain : Bool
deriving DecidableEq

/-- An operator move request (`OpMove`). -/
structure OpMoveR where
  rangeID : Nat
  src : String
  dest : String
  err : Option Nat
deriving DecidableEq

/-- An operator split request (`OpSplit`). -/
structure OpSplitR where
  rangeID : Nat
  key : String
  left : String
  right : String
  err : Option Nat
deriving DecidableEq

/-- An operator join request (`OpJoin`). -/
structure OpJoinR where
  left : Nat
  right : Nat
  dest : String
  err : Option Nat
deriving DecidableEq

/-- A command the actuator sent to a node. -/
structure CommandR where
  nID : String
  rID : Nat
  act : ActionA
deriving DecidableEq

/-- A mock-actuator injection: overrides the node's response to one
command (success with the given remote state, or failure). -/
structure InjectR where
  nID : String
  rID : Nat
  act : ActionA
  success : Bool
  resp : RemoteStateN
deriving DecidableEq

/-- Writes to operator error channels: an error written and the channel
closed, or the channel closed to signal success. -/
inductive ChanEvent where
  | errClosed (ch : Nat)
  | closed (ch : Nat)
deriving DecidableEq

/-- The whole modelled controller state: keyspace, roster view, the three
pending-operator-request queues, the mock injection table, the cumulative
command log, and the operator channel events. -/
structure OrchState where
  ks : KeyspaceR
  nodes : List NodeR
  opMoves : List OpMoveR
  opSplits : List OpSplitR
  opJoins : List OpJoinR
  injects : List InjectR
  cmdLog : List CommandR
  chanEvents : List ChanEvent
deriving DecidableEq

/- ============================================================== -/
/- Orchestrator model: keyspace and roster helpers                -/
/- ============================================================== -/

/-- Byte-wise lexicographic comparison of character lists.  (The library
order on `String` is not kernel-computable, so the model carries its
own, matching Go's `<` on the ASCII keys used throughout.) -/
def charsLt : List Char → List Char → Bool
  | [], [] => false
  | [], _ :: _ => true
  | _ :: _, [] => false
  | a :: as, b :: bs =>
    if a.toNat < b.toNat then true
    else if b.toNat < a.toNat then false
    else charsLt as bs

/-- Strict lexicographic order on strings. -/
def strLt (a b : String) : Bool := charsLt a.data b.data

/-- Lexicographic order on strings. -/
def strLe (a b : String) : Bool := !strLt b a

/-- `Keyspace.GetRange`. -/
def getRange (ks : KeyspaceR) (rid : Nat) : Option RangeR :=
  ks.ranges.find? (·.ident = rid)

/-- Replace the first range with the given ident. -/
def updateRangeR (rs : List RangeR) (rid : Nat) (f : RangeR → RangeR) : List RangeR :=
  match rs with
  | [] => []
  | r :: rest =>
    if r.ident = rid then f r :: rest else r :: updateRangeR rest rid f

/-- Apply `f` to the range with ident `rid`. -/
def updateKs (ks : KeyspaceR) (rid : Nat) (f : RangeR → RangeR) : KeyspaceR :=
  { ks with ranges := updateRangeR ks.ranges rid f }

/-- Replace placement `i` of the range with ident `rid`. -/
def updatePlacement (ks : KeyspaceR) (rid : Nat) (i : Nat)
    (f : PlacementR → PlacementR) : KeyspaceR :=
  updateKs ks rid fun r => { r with placements := r.placements.modify f i }

/-- Find a placement of a range by node id (`Range.PlacementByNodeID`). -/
def getPlacement (ks : KeyspaceR) (rid : Nat) (nID : String) : Option PlacementR :=
  match getRange ks rid with
  | none => none
  | some r => r.placements.find? (·.nodeID = nID)

/-- The number of placements the keyspace has on the given node, used for
candidate load balancing. -/
def nodePlacementCount (ks : KeyspaceR) (nID : String) : Nat :=
  (ks.ranges.map (fun r => (r.placements.filter (·.nodeID = nID)).length)).sum

/-- Look up a node in the roster (`Roster.NodeByIdent`). -/
def nodeByIdent (nodes : List NodeR) (nID : String) : Option NodeR :=
  nodes.find? (·.ident = nID)

/-- The remote state a node reports for a range (`Node.Get`). -/
def nGet (nOpt : Option NodeR) (rid : Nat) : Option RemoteStateN :=
  match nOpt with
  | none => none
  | some n => (n.ranges.find? (·.1 = rid)).map (·.2)

/-- Set (or insert) the remote state a node reports for a range; a
`NsNotFound` response removes the entry, matching the roster's handling
of dropped ranges. -/
def nodeSetRange (nodes : List NodeR) (nID : String) (rid : Nat)
    (ns : RemoteStateN) : List NodeR :=
  nodes.map fun n =>
    if n.ident = nID then
      if ns = RemoteStateN.NsNotFound then
        { n with ranges := n.ranges.filter (·.1 ≠ rid) }
      else if n.ranges.any (·.1 = rid) then
        { n with ranges := n.ranges.map fun e => if e.1 = rid then (rid, ns) else e }
      else
        { n with ranges := n.ranges ++ [(rid, ns)] }
    else n

/-- Modelled from the spec: `Roster.Candidate` is not under `src/`.  The
policy: keep healthy, non-draining nodes that satisfy the optional
explicit node-id constraint and (when placing for a specific range) do
not already hold a placement of that range; tie-break by current
placement count ascending, then node id lexicographically. -/
def candidate (s : OrchState) (forRange : Option RangeR) (constraintNode : String) :
    Option String :=
  let cands := s.nodes.filter fun n =>
    (decide (constraintNode = "") || decide (n.ident = constraintNode)) &&
    !n.wantDrain &&
    (match forRange with
     | none => true
     | some r => r.placements.all (fun p => decide (p.nodeID ≠ n.ident)))
  let best := cands.foldl
    (fun acc n =>
      let cnt := nodePlacementCount s.ks n.ident
      match acc with
      | none => some (n.ident, cnt)
      | some (bid, bcnt) =>
        if cnt < bcnt ∨ (cnt = bcnt ∧ strLt n.ident bid = true) then some (n.ident, cnt)
        else acc)

    none
  best.map (·.1)

/-- Append an operator-channel event. -/
def emitEvent (s : OrchState) (e : ChanEvent) : OrchState :=
  { s with chanEvents := s.chanEvents ++ [e] }

/-- Write an error to an operator channel and close it, when the request
carries a channel. -/
def failChan (s : OrchState) (ch : Option Nat) : OrchState :=
  match ch with
  | none => s
  | some c => emitEvent s (ChanEvent.errClosed c)

/- ============================================================== -/
/- Orchestrator model: keyspace operations (spec-modelled)        -/
/- ============================================================== -/

/-- Range coverage with infinity sentinels, as in the spec's data model
and the node-side `RangeMeta.Contains`. -/
def rContains (r : RangeR) (k : String) : Bool :=
  (decide (r.startK = "") || strLe r.startK k) &&
  (decide (r.endK = "") || strLt k r.endK)

/-- Modelled from the spec: `Keyspace.Split` of the orchestrator
generation is not under `src/`.  Per spec: requires `r.state = Active`,
all of `r`'s placements `Active`, and `r.start < key < r.end`; atomically
transitions `r` to `RsSubsuming` and allocates two children in `RsActive`
with `r` as sole parent.  Returns the updated keyspace and the child
idents. -/
def ksSplit (ks : KeyspaceR) (rid : Nat) (key : String) :
    Except String (KeyspaceR × Nat × Nat) :=
  match getRange ks rid with
  | none => Except.error "no such range"
  | some r =>
    if ¬(key ≠ "") then Except.error "cannot split on zero key"
    else if ¬(r.state = RangeStateN.RsActive) then Except.error "not active"
    else if ¬(r.children = []) then Except.error "already has children"
    else if ¬(r.placements.all (·.stateCurrent = PlacementStateN.PsActive) = true) then
      Except.error "placements not all active"
    else if ¬(rContains r key = true) then Except.error "key out of range"
    else if ¬(key ≠ r.startK) then Except.error "key is range start"
    else
      let cL : RangeR :=
        { ident := ks.nextIdent, startK := r.startK, endK := key,
          state := RangeStateN.RsActive, parents := [rid], children := [],
          placements := [], onObsolete := none }
      let cR : RangeR :=
        { ident := ks.nextIdent + 1, startK := key, endK := r.endK,
          state := RangeStateN.RsActive, parents := [rid], children := [],
          placements := [], onObsolete := none }
      let rs := updateRangeR ks.ranges rid fun rr =>
        { rr with state := RangeStateN.RsSubsuming,
                  children := [cL.ident, cR.ident] }
      Except.ok ({ ranges := rs ++ [cL, cR], nextIdent := ks.nextIdent + 2 },
        cL.ident, cR.ident)

/-- Modelled from the spec: `Keyspace.JoinTwo` of the orchestrator
generation is not under `src/`.  Per spec: requires `l.end = r.start` and
both ranges `Active` (childless, as in the embedded old-generation
`JoinTwo`); transitions both to `RsSubsuming` and allocates one child
covering `[l.start, r.end)` in `RsActive`. -/
def ksJoinTwo (ks : KeyspaceR) (ridOne ridTwo : Nat) :
    Except String (KeyspaceR × Nat) :=
  match getRange ks ridOne, getRange ks ridTwo with
  | none, _ => Except.error "no such range"
  | _, none => Except.error "no such range"
  | some one, some two =>
    if ¬(one.state = RangeStateN.RsActive ∧ one.children = []) then
      Except.error "left not active"
    else if ¬(two.state = RangeStateN.RsActive ∧ two.children = []) then
      Except.error "right not active"
    else if ¬(one.endK = two.startK) then Except.error "not adjacent"
    else
      let c : RangeR :=
        { ident := ks.nextIdent, startK := one.startK, endK := two.endK,
          state := RangeStateN.RsActive, parents := [ridOne, ridTwo],
          children := [], placements := [], onObsolete := none }
      let rs1 := updateRangeR ks.ranges ridOne fun rr =>
        { rr with state := RangeStateN.RsSubsuming, children := [c.ident] }
      let rs2 := updateRangeR rs1 ridTwo fun rr =>
        { rr with state := RangeStateN.RsSubsuming, children := [c.ident] }
      Except.ok ({ ranges := rs2 ++ [c], nextIdent := ks.nextIdent + 1 }, c.ident)

/-- An in-flight operation as reconstructed from parent/child links:
parent range idents and child range idents. -/
structure OperationR where
  parents : List Nat
  children : List Nat
deriving DecidableEq

/-- Modelled from the spec: `Keyspace.Operations` is not under `src/`.
It reconstructs the active operations from the parent/child links: each
`RsSubsuming` range belongs to one operation together with every other
subsuming range sharing one of its children. -/
def operationsGo (subs : List RangeR) : List RangeR → List Nat → List OperationR
  | [], _ => []
  | r :: rest, seen =>
    if r.ident ∈ seen then operationsGo subs rest seen
    else
      let grp := subs.filter fun q => q.children.any (· ∈ r.children)
      { parents := grp.map (·.ident), children := r.children } ::
        operationsGo subs rest (seen ++ grp.map (·.ident))

/-- The in-flight operations of a keyspace. -/
def operations (ks : KeyspaceR) : List OperationR :=
  let subs := ks.ranges.filter (·.state = RangeStateN.RsSubsuming)
  operationsGo subs subs []

/-- All placements of the operation's child ranges. -/
def childPlacements (ks : KeyspaceR) (op : OperationR) : List PlacementR :=
  op.children.flatMap fun cid =>
    match getRange ks cid with
    | none => []
    | some r => r.placements

/-- All placements of the operation's parent ranges. -/
def parentPlacements (ks : KeyspaceR) (op : OperationR) : List PlacementR :=
  op.parents.flatMap fun pid =>
    match getRange ks pid with
    | none => []
    | some r => r.placements

/-- Modelled from the spec: an operation is inverted (recovery mode) when
a child-range placement has exhausted its `Activate` failures. -/
def isInverted (ks : KeyspaceR) (op : OperationR) : Bool :=
  (childPlacements ks op).any (·.failed ActionA.Activate)

/-- A placement state that is `Inactive` or further along the state
machine (away from serving). -/
def inactiveOrLater : PlacementStateN → Bool
  | PlacementStateN.PsInactive => true
  | PlacementStateN.PsMissing => true
  | PlacementStateN.PsGiveUp => true
  | PlacementStateN.PsDropped => true
  | _ => false

/-- A placement state that has reached at least `Inactive` (i.e. its
`Prepare` succeeded). -/
def reachedInactive (s : PlacementStateN) : Bool :=
  ¬(s = PlacementStateN.PsPending ∨ s = PlacementStateN.PsUnknown)

/-- Modelled from the spec: `Operation.MayActivate`.  Forward direction:
a child-range placement may activate once every parent-range placement is
`Inactive` or further (and it has not itself exhausted activation).
Inverted: a parent-range placement may re-activate once no child-range
placement is `Active`.  With no operation: gated by the replacement
protocol — a placement being replaced by a live replacement may not
re-activate, and a replacement may activate only after the placement it
replaces has relinquished. -/
def mayActivate (ks : KeyspaceR) (opt : Option OperationR)
    (p : PlacementR) (r : RangeR) : Bool :=
  match opt with
  | some op =>
    if isInverted ks op then
      decide (r.ident ∈ op.parents) &&
        (childPlacements ks op).all (fun q => ¬(q.stateCurrent = PlacementStateN.PsActive))
    else
      decide (r.ident ∈ op.children) && !p.failed ActionA.Activate &&
        (parentPlacements ks op).all (fun q => inactiveOrLater q.stateCurrent)
  | none =>
    !p.failed ActionA.Activate &&
    r.placements.all (fun q => ¬(q.isReplacing = p.nodeID ∧ q.nodeID ≠ p.nodeID ∧
      ¬(q.failed ActionA.Activate = true) ∧ ¬(q.stateCurrent = PlacementStateN.PsDropped))) &&
    (decide (p.isReplacing = "") ||
      r.placements.all (fun q => decide (q.nodeID = p.isReplacing) →
        inactiveOrLater q.stateCurrent))

/-- Modelled from the spec: `Operation.MayDeactivate`.  Forward: a
parent-range placement may deactivate once every child-range placement
has reached at least `Inactive`.  Inverted: child-range placements are
deactivated.  With no operation: only a placement with a live replacement
that has reached `Inactive` may deactivate. -/
def mayDeactivate (ks : KeyspaceR) (opt : Option OperationR)
    (p : PlacementR) (r : RangeR) : Bool :=
  match opt with
  | some op =>
    if isInverted ks op then
      decide (r.ident ∈ op.children)
    else
      decide (r.ident ∈ op.parents) &&
        (childPlacements ks op).all (fun q => reachedInactive q.stateCurrent)
  | none =>
    r.placements.any fun q =>
      decide (q.isReplacing = p.nodeID) && reachedInactive q.stateCurrent &&
        !q.failed ActionA.Activate

/-- Modelled from the spec: `Operation.MayDrop`.  Forward: a parent-range
placement may drop once every child-range placement is `Active`.
Inverted: a failed child-range placement is dropped once the parents are
back to `Active`.  With no operation: a placement may drop once it has
exhausted activation, or once the placement replacing it is `Active`. -/
def mayDrop (ks : KeyspaceR) (opt : Option OperationR)
    (p : PlacementR) (r : RangeR) : Bool :=
  match opt with
  | some op =>
    if isInverted ks op then
      decide (r.ident ∈ op.children) && p.failed ActionA.Activate &&
        (parentPlacements ks op).all (fun q => q.stateCurrent = PlacementStateN.PsActive)
    else
      decide (r.ident ∈ op.parents) &&
        (childPlacements ks op).all (fun q => q.stateCurrent = PlacementStateN.PsActive)
  | none =>
    p.failed ActionA.Activate ||
      r.placements.any (fun q => decide (q.isReplacing = p.nodeID) &&
        decide (q.stateCurrent = PlacementStateN.PsActive))

/-- Modelled from the spec: `Operation.CheckComplete`.  When every parent
range has no placements left (dropped placements are destroyed by the
placement tick first) and every child range has at least one `Active`
placement, the parents become `RsObsolete` and the operator callback
fires. -/
def checkComplete (s : OrchState) (op : OperationR) : OrchState :=
  let parentsDone := op.parents.all fun pid =>
    match getRange s.ks pid with
    | none => false
    | some r => r.placements.isEmpty
  let childrenReady := op.children.all fun cid =>
    match getRange s.ks cid with
    | none => false
    | some r => r.placements.any (·.stateCurrent = PlacementStateN.PsActive)
  if parentsDone && childrenReady then
    op.parents.foldl
      (fun s pid =>
        match getRange s.ks pid with
        | none => s
        | some r =>
          let s := match r.onObsolete with
            | some ch => emitEvent s (ChanEvent.closed ch)
            | none => s
          { s with ks := updateKs s.ks pid fun rr =>
              { rr with state := RangeStateN.RsObsolete, onObsolete := none } })
      s
  else s

/- ============================================================== -/
/- Orchestrator model: tickPlacement                               -/
/- ============================================================== -/

/-- The outcome of one `tickPlacement` switch: an optional current-state
transition (`PlacementToState`), an optional new desired state
(`Placement.Want`), and the destroy flag returned to `tickRange`. -/
structure PDecision where
  newCurrent : Option PlacementStateN
  newDesired : Option PlacementStateN
  destroy : Bool
deriving DecidableEq

/-- No-op decision. -/
def pdNone : PDecision :=
  { newCurrent := none, newDesired := none, destroy := false }

/-- Decision: move the current state. -/
def pdCur (ps : PlacementStateN) : PDecision :=
  { pdNone with newCurrent := some ps }

/-- Decision: set the desired state. -/
def pdWant (ps : PlacementStateN) : PDecision :=
  { pdNone with newDesired := some ps }

/-- Decision: destroy the placement. -/
def pdDestroy : PDecision :=
  { pdNone with destroy := true }

/-- The placement-state switch of `tickPlacement`, as a pure function of
the keyspace, the governing operation, the range, the placement (with the
replacement annotation already cleaned up) and the remote state the node
reports for the range (`none` when the node does not have it).  The
source panics on `PsUnknown`; the orchestrator never stores it, so the
model returns a no-op there. -/
def placementDecision (ks : KeyspaceR) (opt : Option OperationR)
    (r : RangeR) (p : PlacementR) (ri : Option RemoteStateN) : PDecision :=
  match p.stateCurrent with
  | PlacementStateN.PsPending =>
    match ri with
    | some RemoteStateN.NsPreparing => pdWant PlacementStateN.PsInactive
    | some RemoteStateN.NsInactive => pdCur PlacementStateN.PsInactive
    | some RemoteStateN.NsNotFound =>
      { pdWant PlacementStateN.PsInactive with destroy := p.failed ActionA.Prepare }
    | some _ => pdCur PlacementStateN.PsMissing
    | none =>
      { pdWant PlacementStateN.PsInactive with destroy := p.failed ActionA.Prepare }
  | PlacementStateN.PsInactive =>
    match ri with
    | none =>
      if p.failed ActionA.Activate then pdDestroy
      else if mayDrop ks opt p r then pdCur PlacementStateN.PsDropped
      else pdCur PlacementStateN.PsMissing
    | some RemoteStateN.NsInactive =>
      if mayActivate ks opt p r then pdWant PlacementStateN.PsActive
      else if mayDrop ks opt p r then pdWant PlacementStateN.PsDropped
      else pdNone
    | some RemoteStateN.NsActivating => pdWant PlacementStateN.PsActive
    | some RemoteStateN.NsDropping => pdWant PlacementStateN.PsDropped
    | some RemoteStateN.NsActive => pdCur PlacementStateN.PsActive
    | some _ => pdCur PlacementStateN.PsMissing
  | PlacementStateN.PsActive =>
    match ri with
    | none => pdCur PlacementStateN.PsMissing
    | some RemoteStateN.NsActive =>
      if mayDeactivate ks opt p r then pdWant PlacementStateN.PsInactive else pdNone
    | some RemoteStateN.NsDeactivating => pdWant PlacementStateN.PsInactive
    | some RemoteStateN.NsInactive => pdCur PlacementStateN.PsInactive
    | some _ => pdCur PlacementStateN.PsMissing
  | PlacementStateN.PsMissing => pdCur PlacementStateN.PsDropped
  | PlacementStateN.PsDropped => pdDestroy
  | _ => pdNone

/-- `Keyspace.PlacementToState` (the orchestrator-generation keyspace is
not under `src/`; modelled from the spec): set the current state of
placement `i` of range `rid`, and fire the `OnReady` callback when the
placement becomes `Active`. -/
def placementToState (s : OrchState) (rid i : Nat) (ps : PlacementStateN) :
    OrchState :=
  let fire := ps = PlacementStateN.PsActive
  let chOpt : Option Nat :=
    match getRange s.ks rid with
    | none => none
    | some r =>
      match r.placements[i]? with
      | none => none
      | some p => if fire then p.onReady else none
  let s2 := { s with ks := updatePlacement s.ks rid i fun p =>
    { p with stateCurrent := ps,
             onReady := if fire then none else p.onReady } }
  match chOpt with
  | none => s2
  | some ch => emitEvent s2 (ChanEvent.closed ch)

/-- `Placement.Want`: set the desired state of placement `i`. -/
def placementWant (s : OrchState) (rid i : Nat) (ps : PlacementStateN) :
    OrchState :=
  { s with ks := updatePlacement s.ks rid i fun p => { p with stateDesired := ps } }

/-- The body of `tickPlacement` after the node-missing guard: the
`DoneReplacing` cleanup, the drain-triggered move enqueue, and the state
switch applied to the orchestrator state. -/
def tickPlacementCore (s : OrchState) (opt : Option OperationR) (rid i : Nat)
    (r : RangeR) (p : PlacementR) (ri : Option RemoteStateN) (drain : Bool) :
    OrchState × Bool :=
  let clear := !decide (p.isReplacing = "") &&
    r.placements.all (fun q => decide (q.nodeID ≠ p.isReplacing))
  let p := if clear then { p with isReplacing := "" } else p
  let s := if clear then
      { s with ks := updatePlacement s.ks rid i fun q => { q with isReplacing := "" } }
    else s
  let r := (getRange s.ks rid).getD r
  let s := if drain then
      { s with opMoves := s.opMoves ++
        [{ rangeID := r.ident, src := p.nodeID, dest := "", err := none }] }
    else s
  let d := placementDecision s.ks opt r p ri
  let s := match d.newCurrent with
    | none => s
    | some ps => placementToState s rid i ps
  let s := match d.newDesired with
    | none => s
    | some ps => placementWant s rid i ps
  (s, d.destroy)

/-- `tickPlacement` on placement `i` of range `rid`: a placement whose
node has vanished from the roster is marked `Missing` (unless already
`Missing` or `Dropped`); otherwise the switch runs.  Returns the updated
state and whether the placement should be destroyed. -/
def tickPlacementAt (s : OrchState) (opt : Option OperationR) (rid i : Nat) :
    OrchState × Bool :=
  match getRange s.ks rid with
  | none => (s, false)
  | some r =>
    match r.placements[i]? with
    | none => (s, false)
    | some p =>
      match nodeByIdent s.nodes p.nodeID with
      | none =>
        if ¬(p.stateCurrent = PlacementStateN.PsMissing ∨
             p.stateCurrent = PlacementStateN.PsDropped) then
          (placementToState s rid i PlacementStateN.PsMissing, false)
        else
          tickPlacementCore s opt rid i r p none false
      | some n =>
        tickPlacementCore s opt rid i r p (nGet (some n) r.ident) n.wantDrain

/- ============================================================== -/
/- Orchestrator model: tickRange and Tick                          -/
/- ============================================================== -/

/-- Modelled from the spec: `Range.MinPlacements` is not under `src/`;
per the spec and test configuration the minimum is one. -/
def minPlacements : Nat := 1

/-- `moveOp`: find and remove the first pending move for the range. -/
def moveOpTake (ms : List OpMoveR) (rid : Nat) : Option OpMoveR × List OpMoveR :=
  match ms with
  | [] => (none, [])
  | m :: rest =>
    if m.rangeID = rid then (some m, rest)
    else
      let (found, rest2) := moveOpTake rest rid
      (found, m :: rest2)

/-- Find and remove the pending split for the range. -/
def opSplitTake (ms : List OpSplitR) (rid : Nat) : Option OpSplitR × List OpSplitR :=
  match ms with
  | [] => (none, [])
  | m :: rest =>
    if m.rangeID = rid then (some m, rest)
    else
      let (found, rest2) := opSplitTake rest rid
      (found, m :: rest2)

/-- `doMove`: locate the source placement (explicit node id, else the
first `Active` placement), reject the move when the source is already
being replaced, pick a destination candidate, and append the replacement
placement (`Range.NewReplacement`), wired to close the operator channel
when it activates. -/
def doMoveF (s : OrchState) (r : RangeR) (m : OpMoveR) :
    Except String OrchState :=
  let srcOpt := if m.src ≠ "" then r.placements.find? (·.nodeID = m.src)
    else r.placements.find? (·.stateCurrent = PlacementStateN.PsActive)
  match srcOpt with
  | none => Except.error "src placement not found"
  | some src =>
    if r.placements.any (·.isReplacing = src.nodeID) then
      Except.error "placement already being replaced"
    else
      match candidate s (some r) m.dest with
      | none => Except.error "no candidate"
      | some dest =>
        Except.ok { s with ks := updateKs s.ks r.ident fun rr =>
          { rr with placements := rr.placements ++
            [{ newPlacement dest with isReplacing := src.nodeID, onReady := m.err }] } }

/-- Tick placements `i, i+1, ...` (reading fresh state each time, as the
source does through pointers), collecting the indices to destroy. -/
def tickPlacementsFrom (s : OrchState) (opt : Option OperationR) (rid : Nat) :
    Nat → Nat → OrchState × List Nat
  | _, 0 => (s, [])
  | i, fuel+1 =>
    let (s2, destroy) := tickPlacementAt s opt rid i
    let (s3, rest) := tickPlacementsFrom s2 opt rid (i+1) fuel
    (s3, if destroy then i :: rest else rest)

/-- `tickRange`: handle an `RsActive` range (placement creation below the
minimum, then a pending move, then a pending split, each with the
source's early returns); `RsSubsuming` and `RsObsolete` have no per-range
work.  Unless an early return fired, every placement is then ticked and
the destroyed ones are erased by stored index, exactly as the source
does: sequential erases, so later indices refer to the already-shrunk
list. -/
def tickRange (s0 : OrchState) (opt : Option OperationR) (rid : Nat) : OrchState :=
  Id.run do
  let mut s := s0
  let some r0 := getRange s.ks rid | return s
  let mut abort := false
  if r0.state = RangeStateN.RsActive then
    if r0.placements.length < minPlacements then
      match candidate s (some r0) "" with
      | none => abort := true
      | some nID =>
        s := { s with ks := updateKs s.ks rid fun rr =>
          { rr with placements := rr.placements ++ [newPlacement nID] } }
    if ¬ abort then
      let (mOpt, rest) := moveOpTake s.opMoves rid
      s := { s with opMoves := rest }
      match mOpt with
      | none => pure ()
      | some m =>
        let r := (getRange s.ks rid).getD r0
        match doMoveF s r m with
        | Except.ok s2 => s := s2
        | Except.error _ =>
          s := failChan s m.err
          abort := true
    if ¬ abort then
      let (spOpt, rest) := opSplitTake s.opSplits rid
      s := { s with opSplits := rest }
      match spOpt with
      | none => pure ()
      | some sp =>
        match candidate s none sp.left with
        | none =>
          s := failChan s sp.err
          abort := true
        | some nIDL =>
          match candidate s none sp.right with
          | none =>
            s := failChan s sp.err
            abort := true
          | some nIDR =>
            match ksSplit s.ks rid sp.key with
            | Except.error _ =>
              s := failChan s sp.err
              abort := true
            | Except.ok (ks2, cL, cR) =>
              s := { s with ks := ks2 }
              s := { s with ks := updateKs s.ks cL fun rr =>
                { rr with placements := rr.placements ++ [newPlacement nIDL] } }
              s := { s with ks := updateKs s.ks cR fun rr =>
                { rr with placements := rr.placements ++ [newPlacement nIDR] } }
              match sp.err with
              | none => pure ()
              | some ch =>
                s := { s with ks := updateKs s.ks rid fun rr =>
                  { rr with onObsolete := some ch } }
  if abort then return s
  let n := ((getRange s.ks rid).getD r0).placements.length
  let (s2, toDestroy) := tickPlacementsFrom s opt rid 0 n
  s := s2
  s := { s with ks := updateKs s.ks rid fun rr =>
    { rr with placements :=
        toDestroy.foldl (fun acc i => acc.eraseIdx i) rr.placements } }
  return s

/-- One pending join at the top of `Tick`: both sides must exist, a
candidate node must be available, and `JoinTwo` must succeed; on failure
the operator channel receives the error and is closed, on success a
placement for the joined range is created on the candidate, wired to
close the operator channel when it activates. -/
def applyOneJoin (s : OrchState) (j : OpJoinR) : OrchState :=
  match getRange s.ks j.left with
  | none => failChan s j.err
  | some _ =>
    match getRange s.ks j.right with
    | none => failChan s j.err
    | some _ =>
      match candidate s none j.dest with
      | none => failChan s j.err
      | some nID =>
        match ksJoinTwo s.ks j.left j.right with
        | Except.error _ => failChan s j.err
        | Except.ok (ks2, cid) =>
          { s with ks := updateKs ks2 cid fun rr =>
              { rr with placements := rr.placements ++
                [{ newPlacement nID with onReady := j.err }] } }

/-- The join phase: apply every pending join in order, then empty the
queue. -/
def applyJoinsPhase (s : OrchState) : OrchState :=
  let s2 := s.opJoins.foldl applyOneJoin s
  { s2 with opJoins := [] }

/-- The remainder of `Tick` after the join phase: reconstruct the
in-flight operations and tick their parent and child ranges first
(checking completion before each operation), then tick the remaining
ranges of the pre-join snapshot, skipping obsolete and already-visited
ones. -/
def orchTickRest (snapshot : List Nat) (s1 : OrchState) : OrchState :=
  Id.run do
  let mut s := s1
  let ops := operations s.ks
  let mut visited : List Nat := []
  for op in ops do
    s := checkComplete s op
    for rid in op.parents ++ op.children do
      s := tickRange s (some op) rid
      visited := visited ++ [rid]
  for rid in snapshot do
    match getRange s.ks rid with
    | none => pure ()
    | some r =>
      if r.state = RangeStateN.RsObsolete then pure ()
      else if rid ∈ visited then pure ()
      else s := tickRange s none rid
  return s

/-- One orchestrator `Tick`: snapshot the range list, apply every pending
join, then run the rest of the tick. -/
def orchTick (s0 : OrchState) : OrchState :=
  orchTickRest (s0.ks.ranges.map (·.ident)) (applyJoinsPhase s0)

/- ============================================================== -/
/- Actuator model (modelled from the spec)                         -/
/- ============================================================== -/

/-- The action implied by a placement's current and desired states, as in
the actuator's transition table. -/
def actionFor : PlacementStateN → PlacementStateN → Option ActionA
  | PlacementStateN.PsPending, PlacementStateN.PsInactive => some ActionA.Prepare
  | PlacementStateN.PsInactive, PlacementStateN.PsActive => some ActionA.Activate
  | PlacementStateN.PsActive, PlacementStateN.PsInactive => some ActionA.Deactivate
  | PlacementStateN.PsInactive, PlacementStateN.PsDropped => some ActionA.Drop
  | _, _ => none

/-- The node-side state resulting from a successful command. -/
def defaultResp : ActionA → RemoteStateN
  | ActionA.Prepare => RemoteStateN.NsInactive
  | ActionA.Activate => RemoteStateN.NsActive
  | ActionA.Deactivate => RemoteStateN.NsInactive
  | ActionA.Drop => RemoteStateN.NsNotFound

/-- Modelled from the spec: the actuator stops retrying `Prepare`,
`Activate` and `Deactivate` once they have failed `maxFailures` times,
but retries `Drop` indefinitely. -/
def shouldSend (p : PlacementR) : ActionA → Bool
  | ActionA.Drop => true
  | a => !p.failed a

/-- Look up a mock-actuator injection for a command. -/
def findInject (injs : List InjectR) (nID : String) (rid : Nat) (a : ActionA) :
    Option InjectR :=
  injs.find? fun i =>
    decide (i.nID = nID) && decide (i.rID = rid) && decide (i.act = a)

/-- Modelled from the spec: one actuator command for placement `i` of
range `rid`: when the desired state implies an action that has not been
given up on, log the command and apply the node's response — the mock
injection entry when one matches, else the default success response.  A
failure response leaves the node unchanged and increments the
placement's failure counter. -/
def actuateOne (s : OrchState) (rid i : Nat) : OrchState :=
  match getRange s.ks rid with
  | none => s
  | some r =>
    match r.placements[i]? with
    | none => s
    | some p =>
      match actionFor p.stateCurrent p.stateDesired with
      | none => s
      | some a =>
        if shouldSend p a then
          let s2 := { s with cmdLog := s.cmdLog ++
            [({ nID := p.nodeID, rID := rid, act := a } : CommandR)] }
          match findInject s2.injects p.nodeID rid a with
          | some inj =>
            if inj.success then
              { s2 with nodes := nodeSetRange s2.nodes p.nodeID rid inj.resp }
            else
              { s2 with ks := updatePlacement s2.ks rid i fun q => q.addFail a }
          | none =>
            { s2 with nodes := nodeSetRange s2.nodes p.nodeID rid (defaultResp a) }
        else s

/-- Actuate every placement of one range. -/
def actuateRange (s : OrchState) (rid : Nat) : OrchState :=
  match getRange s.ks rid with
  | none => s
  | some r =>
    (List.range r.placements.length).foldl (fun s i => actuateOne s rid i) s

/-- Modelled from the spec: one actuator pass over every placement. -/
def actuatorTick (s : OrchState) : OrchState :=
  (s.ks.ranges.map (·.ident)).foldl actuateRange s

/-- One full controller cycle: an orchestrator tick followed by an
actuator pass. -/
def fullTick (s : OrchState) : OrchState :=
  actuatorTick (orchTick s)

/- ============================================================== -/
/- Driving events and traces                                       -/
/- ============================================================== -/

/-- An external event driving the modelled system: a controller cycle, a
node report (as delivered by probes or RPC responses), an operator
request, or a mock-actuator injection change. -/
inductive Ev where
  | tick
  | report (nID : String) (rid : Nat) (ns : RemoteStateN)
  | reqMove (m : OpMoveR)
  | reqSplit (sp : OpSplitR)
  | reqJoin (j : OpJoinR)
  | setInject (inj : InjectR)
  | clearInject (nID : String) (rid : Nat) (a : ActionA)
deriving DecidableEq

/-- Apply one event. -/
def stepEv (s : OrchState) : Ev → OrchState
  | Ev.tick => fullTick s
  | Ev.report nID rid ns => { s with nodes := nodeSetRange s.nodes nID rid ns }
  | Ev.reqMove m => { s with opMoves := s.opMoves ++ [m] }
  | Ev.reqSplit sp => { s with opSplits := s.opSplits ++ [sp] }
  | Ev.reqJoin j => { s with opJoins := s.opJoins ++ [j] }
  | Ev.setInject inj => { s with injects := s.injects ++ [inj] }
  | Ev.clearInject nID rid a =>
    { s with injects := s.injects.filter fun i =>
        !(decide (i.nID = nID) && decide (i.rID = rid) && decide (i.act = a)) }

/-- Run a list of events. -/
def runEvents (s : OrchState) (evs : List Ev) : OrchState :=
  evs.foldl stepEv s

/-- Every state the system passes through while running the events,
including the initial and final states. -/
def statesOf (s : OrchState) (evs : List Ev) : List OrchState :=
  evs.scanl stepEv s

/- ============================================================== -/
/- Keyspace invariant helpers                                      -/
/- ============================================================== -/

/-- The key intervals currently served: one per `Active` placement. -/
def activeIntervals (s : OrchState) : List (String × String) :=
  s.ks.ranges.flatMap fun r =>
    r.placements.filterMap fun p =>
      if p.stateCurrent = PlacementStateN.PsActive then some (r.startK, r.endK)
      else none

/-- A key lies in a half-open interval with infinity sentinels. -/
def inInterval (a : String × String) (k : String) : Bool :=
  (decide (a.1 = "") || strLe a.1 k) &&
  (decide (a.2 = "") || strLt k a.2)

/-- Two half-open intervals with infinity sentinels overlap. -/
def intervalsOverlap (a b : String × String) : Bool :=
  (decide (a.2 = "") || decide (b.1 = "") || strLt b.1 a.2) &&
  (decide (b.2 = "") || decide (a.1 = "") || strLt a.1 b.2)

/-- No two of the intervals overlap. -/
def pairwiseOk : List (String × String) → Bool
  | [] => true
  | a :: rest => rest.all (fun b => !intervalsOverlap a b) && pairwiseOk rest

/-- How many `Active` placements cover the key. -/
def countActiveCovering (s : OrchState) (k : String) : Nat :=
  ((activeIntervals s).filter (fun a => inInterval a k)).length

/- ============================================================== -/
/- Validation of the model against the orchestrator tests          -/
/- (node ids shortened: the tests' test-aaa, test-bbb, test-ccc    -/
/- are a, b, c here, and the split key ccc is c)                   -/
/- ============================================================== -/

/-- A roster node with no placements. -/
def mkNode (id : String) : NodeR :=
  { ident := id, ranges := [], wantDrain := false }

/-- The full-keyspace range the scenarios start from. -/
def range1 : RangeR :=
  { ident := 1, startK := "", endK := "", state := RangeStateN.RsActive,
    parents := [], children := [], placements := [], onObsolete := none }

/-- An `Active` placement on the given node. -/
def activePlacement (id : String) : PlacementR :=
  { newPlacement id with stateCurrent := PlacementStateN.PsActive,
                         stateDesired := PlacementStateN.PsActive }

/-- A fresh controller state: one unplaced full-keyspace range and the
given nodes. -/
def mkInit (nodes : List NodeR) : OrchState :=
  { ks := { ranges := [range1], nextIdent := 2 }, nodes := nodes,
    opMoves := [], opSplits := [], opJoins := [], injects := [],
    cmdLog := [], chanEvents := [] }

/-- One-node start state. -/
def initA : OrchState := mkInit [mkNode "a"]

/-- Two-node start state. -/
def initAB : OrchState := mkInit [mkNode "a", mkNode "b"]

/-- `n` controller cycles. -/
def ticks (n : Nat) : List Ev := List.replicate n Ev.tick

/-- The per-placement view of a state that the orchestrator tests assert
on: node id, current state, desired state, for each range in order. -/
def pView (s : OrchState) : List (List (String × PlacementStateN × PlacementStateN)) :=
  s.ks.ranges.map fun r =>
    r.placements.map fun p => (p.nodeID, p.stateCurrent, p.stateDesired)

/-- The per-range view: ident, range state, placements with node id and
current state. -/
def rView (s : OrchState) : List (Nat × RangeStateN × List (String × PlacementStateN)) :=
  s.ks.ranges.map fun r =>
    (r.ident, r.state, r.placements.map fun p => (p.nodeID, p.stateCurrent))

/-- An injection making `Activate` of range 1 fail on node `a`. -/
def injActFailA : InjectR :=
  { nID := "a", rID := 1, act := ActionA.Activate, success := false,
    resp := RemoteStateN.NsUnknown }

/-- `TestMissingPlacement` start state: an active placement its node
does not report. -/
def initMissing : OrchState :=
  { (mkInit [mkNode "a"]) with
      ks := { ranges := [{ range1 with placements := [activePlacement "a"] }],
              nextIdent := 2 } }

/-- `TestMove` start state: the range active on node `a`, node `b`
empty. -/
def initMove : OrchState :=
  { (mkInit [mkNode "a", mkNode "b"]) with
      ks := { ranges := [{ range1 with placements := [activePlacement "a"] }],
              nextIdent := 2 },
      nodes := [{ mkNode "a" with ranges := [(1, RemoteStateN.NsActive)] },
                mkNode "b"] }

/-- The operator move request used by the move scenario. -/
def mvB : OpMoveR := { rangeID := 1, src := "", dest := "b", err := none }

/-- The move view adds the replacement annotation. -/
def mView (s : OrchState) : List (List (String × PlacementStateN × PlacementStateN × String)) :=
  s.ks.ranges.map fun r =>
    r.placements.map fun p => (p.nodeID, p.stateCurrent, p.stateDesired, p.isReplacing)

/-- `TestSplit` start state: the range active on the sole node `a`. -/
def initSplit : OrchState :=
  { (mkInit [mkNode "a"]) with
      ks := { ranges := [{ range1 with placements := [activePlacement "a"] }],
              nextIdent := 2 },
      nodes := [{ mkNode "a" with ranges := [(1, RemoteStateN.NsActive)] }] }

/-- The operator split request used by the split scenario. -/
def spC : OpSplitR :=
  { rangeID := 1, key := "c", left := "", right := "", err := some 7 }

/-- `TestJoin` start state: two adjacent active ranges on nodes `a` and
`b`, node `c` empty. -/
def initJoin : OrchState :=
  { (mkInit [mkNode "a", mkNode "b", mkNode "c"]) with
      ks := { ranges := [{ range1 with endK := "g", placements := [activePlacement "a"] },
                         { range1 with ident := 2, startK := "g",
                                       placements := [activePlacement "b"] }],
              nextIdent := 3 },
      nodes := [{ mkNode "a" with ranges := [(1, RemoteStateN.NsActive)] },
                { mkNode "b" with ranges := [(2, RemoteStateN.NsActive)] },
                mkNode "c"] }

/-- The operator join request used by the join scenario. -/
def jnC : OpJoinR := { left := 1, right := 2, dest := "c", err := some 9 }

/- ============================================================== -/
/- Claim C1: the coverage invariant                                -/
/- ============================================================== -/

/-- The canonical executions: place, move, split, and join, driven to
completion with honest node responses. -/
def c1Traces : List OrchState :=
  statesOf initA (ticks 5) ++
  statesOf initMove (Ev.reqMove mvB :: ticks 11) ++
  statesOf initSplit (Ev.reqSplit spC :: ticks 11) ++
  statesOf initJoin (Ev.reqJoin jnC :: ticks 10)

/-- An `Inactive` placement on the given node. -/
def pInact (id : String) : PlacementR :=
  { newPlacement id with stateCurrent := PlacementStateN.PsInactive,
                         stateDesired := PlacementStateN.PsInactive }

/-- A mid-split keyspace: subsuming parent 1 with an inactive placement,
children 2 and 3 with inactive placements. -/
def ksC2 : KeyspaceR :=
  { ranges :=
      [{ range1 with state := RangeStateN.RsSubsuming, children := [2, 3],
                     placements := [pInact "a"] },
       { range1 with ident := 2, endK := "c", parents := [1],
                     placements := [pInact "a"] },
       { range1 with ident := 3, startK := "c", parents := [1],
                     placements := [pInact "a"] }],
    nextIdent := 4 }

/-- The split operation reconstructed from `ksC2`. -/
def opC2 : OperationR := { parents := [1], children := [2, 3] }

/-- Child range 2 of `ksC2`. -/
def rC2 : RangeR :=
  { range1 with ident := 2, endK := "c", parents := [1],
                placements := [pInact "a"] }

/- ============================================================== -/
/- Claim C3: retry caps per action                                 -/
/- ============================================================== -/

/-- A `Prepare` injection that always fails. -/
def injPrepFailA : InjectR :=
  { nID := "a", rID := 1, act := ActionA.Prepare, success := false,
    resp := RemoteStateN.NsUnknown }

/-- A `Deactivate` injection that always fails. -/
def injDeactFail : InjectR :=
  { nID := "a", rID := 1, act := ActionA.Deactivate, success := false,
    resp := RemoteStateN.NsUnknown }

/-- A `Drop` injection that always fails. -/
def injDropFail : InjectR :=
  { nID := "a", rID := 1, act := ActionA.Drop, success := false,
    resp := RemoteStateN.NsUnknown }

/-- The deactivation-stuck placement: still `Active`, asked to
deactivate, with the failure budget exhausted. -/
def pDeactA : PlacementR :=
  { nodeID := "a", stateCurrent := PlacementStateN.PsActive,
    stateDesired := PlacementStateN.PsInactive, isReplacing := "",
    failsPrepare := 0, failsActivate := 0, failsDeactivate := 3,
    failsDrop := 0, onReady := none }

/-- The prepared replacement waiting for the stuck placement. -/
def pDeactB : PlacementR :=
  { nodeID := "b", stateCurrent := PlacementStateN.PsInactive,
    stateDesired := PlacementStateN.PsInactive, isReplacing := "a",
    failsPrepare := 0, failsActivate := 0, failsDeactivate := 0,
    failsDrop := 0, onReady := none }

/-- The stuck mid-move state reached when `Deactivate` keeps failing:
the move can make no further progress and no further `Deactivate` is
sent. -/
def sDeact : OrchState :=
  { ks := { ranges := [{ range1 with placements := [pDeactA, pDeactB] }],
            nextIdent := 2 },
    nodes := [{ ident := "a", ranges := [(1, RemoteStateN.NsActive)],
                wantDrain := false },
              { ident := "b", ranges := [(1, RemoteStateN.NsInactive)],
                wantDrain := false }],
    opMoves := [], opSplits := [], opJoins := [], injects := [injDeactFail],
    cmdLog := [{ nID := "b", rID := 1, act := ActionA.Prepare },
               { nID := "a", rID := 1, act := ActionA.Deactivate },
               { nID := "a", rID := 1, act := ActionA.Deactivate },
               { nID := "a", rID := 1, act := ActionA.Deactivate }],
    chanEvents := [] }

/-- The `Drop` command the drop-stuck state emits every cycle. -/
def dropCmd : CommandR := { nID := "a", rID := 1, act := ActionA.Drop }

/-- The drop-stuck placement: `Inactive` with activation given up, asked
to drop, with `n` drop failures so far. -/
def pDropStuck (n : Nat) : PlacementR :=
  { nodeID := "a", stateCurrent := PlacementStateN.PsInactive,
    stateDesired := PlacementStateN.PsDropped, isReplacing := "",
    failsPrepare := 0, failsActivate := 3, failsDeactivate := 0,
    failsDrop := n, onReady := none }

/-- The drop-stuck family of states: reached when `Activate` exhausted
its budget and `Drop` keeps failing; `log` is the command log so far. -/
def sDrop (n : Nat) (log : List CommandR) : OrchState :=
  { ks := { ranges := [{ range1 with placements := [pDropStuck n] }],
            nextIdent := 2 },
    nodes := [{ ident := "a", ranges := [(1, RemoteStateN.NsInactive)],
                wantDrain := false }],
    opMoves := [], opSplits := [], opJoins := [],
    injects := [injActFailA, injDropFail],
    cmdLog := log, chanEvents := [] }

/-- The command log of the drop-stuck run up to its first drop. -/
def dropLog : List CommandR :=
  [{ nID := "a", rID := 1, act := ActionA.Prepare },
   { nID := "a", rID := 1, act := ActionA.Activate },
   { nID := "a", rID := 1, act := ActionA.Activate },
   { nID := "a", rID := 1, act := ActionA.Activate },
   dropCmd]

/- ============================================================== -/
/- Claim C8: joins applied first; rejected joins close the channel -/
/- ============================================================== -/

/-- A state with a pending join whose left side does not exist. -/
def sBadJoin : OrchState :=
  { (mkInit [mkNode "a"]) with
      opJoins := [{ left := 99, right := 1, dest := "", err := some 5 }] }

/- ============================================================== -/
/- Theorems                                                       -/
/- ============================================================== -/

-- staging area; appended to main file when compiling

/- ============================================================== -/
/- Claim C7: rollback of placement transitions on persist failure -/
/- ============================================================== -/

/-- C7 (counterexample): transitioning a placement from `SpTaken` to
`SpDropped` clears its node id before persisting; when the persistence
write fails the state field is rewound but the node id is not, so the
catalog is not unchanged on this failing transition. -/
theorem c7_counterexample :
    DurablePlacement.toState
        { state := StatePlacement.SpTaken, nodeID := "node-a" }
        StatePlacement.SpDropped false
      = ToStateResult.err { state := StatePlacement.SpTaken, nodeID := "" }
          "while persisting placement" ∧
    ("" : String) ≠ "node-a" := by
  decide

/-- C7 (amended): whenever `ToState` reports failure the placement's state
field equals its value before the call, and the whole placement is
unchanged except in the single case of a failed persist on the
`SpTaken → SpDropped` transition, where the node id has been cleared and
is not restored. -/
theorem c7_theorem (p : DurablePlacement) (new : StatePlacement)
    (persistOk : Bool) (q : DurablePlacement) (m : String)
    (h : p.toState new persistOk = ToStateResult.err q m) :
    q.state = p.state ∧
    (¬(p.state = StatePlacement.SpTaken ∧ new = StatePlacement.SpDropped ∧
        persistOk = false) → q = p) := by
  rcases p with ⟨s, nid⟩
  cases s <;> cases new <;> cases persistOk <;>
    (first
      | (simp [DurablePlacement.toState] at h; done)
      | (simp [DurablePlacement.toState] at h
         obtain ⟨hq, hm⟩ := h
         subst hq
         simp))

/-- Witness for `c7_theorem` at a concrete rejected transition
(`SpReady → SpFetched` is invalid, so the placement is returned
unchanged). -/
theorem c7_theorem_witness :
    ({ state := StatePlacement.SpReady, nodeID := "n" } : DurablePlacement).state
        = StatePlacement.SpReady ∧
    (¬(StatePlacement.SpReady = StatePlacement.SpTaken ∧
        StatePlacement.SpFetched = StatePlacement.SpDropped ∧ true = false) →
      ({ state := StatePlacement.SpReady, nodeID := "n" } : DurablePlacement)
        = { state := StatePlacement.SpReady, nodeID := "n" }) :=
  c7_theorem { state := StatePlacement.SpReady, nodeID := "n" }
    StatePlacement.SpFetched true
    { state := StatePlacement.SpReady, nodeID := "n" }
    "invalid placement state transition" (by decide)

/- ============================================================== -/
/- Claim C4: Keyspace.DoSplit                                     -/
/- ============================================================== -/

/-- `updateRange` with an ident-preserving function preserves the list of
idents. -/
theorem updateRange_map_ident (rs : List RangeO) (rid : Nat) (f : RangeO → RangeO)
    (hf : ∀ rr : RangeO, (f rr).ident = rr.ident) :
    (updateRange rs rid f).map (·.ident) = rs.map (·.ident) := by
  induction rs with
  | nil => rfl
  | cons a rest ih =>
    by_cases ha : a.ident = rid <;> simp [updateRange, ha, ih, hf]

/-- Finding the updated ident after `updateRange`. -/
theorem updateRange_find?_self (rs : List RangeO) (rid : Nat) (f : RangeO → RangeO)
    (r : RangeO) (hf : ∀ rr : RangeO, (f rr).ident = rr.ident)
    (h : rs.find? (·.ident = rid) = some r) :
    (updateRange rs rid f).find? (·.ident = rid) = some (f r) := by
  induction rs with
  | nil => simp at h
  | cons a rest ih =>
    by_cases ha : a.ident = rid
    · rw [List.find?_cons_of_pos _ (by simp [ha])] at h
      cases h
      rw [updateRange]
      rw [if_pos ha]
      exact List.find?_cons_of_pos _ (by simp [hf, ha])
    · rw [List.find?_cons_of_neg _ (by simp [ha])] at h
      rw [updateRange]
      rw [if_neg ha]
      rw [List.find?_cons_of_neg _ (by simp [ha])]
      exact ih h

/-- Finding a different ident is unaffected by `updateRange`. -/
theorem updateRange_find?_other (rs : List RangeO) (rid rid' : Nat)
    (f : RangeO → RangeO) (hne : rid' ≠ rid)
    (hf : ∀ rr : RangeO, (f rr).ident = rr.ident) :
    (updateRange rs rid f).find? (·.ident = rid') = rs.find? (·.ident = rid') := by
  induction rs with
  | nil => rfl
  | cons a rest ih =>
    by_cases ha : a.ident = rid
    · rw [updateRange, if_pos ha]
      rw [List.find?_cons_of_neg _ (by simp [hf, ha]; omega)]
      rw [List.find?_cons_of_neg _ (by simp [ha]; omega)]
    · rw [updateRange, if_neg ha]
      by_cases ha' : a.ident = rid'
      · rw [List.find?_cons_of_pos _ (by simp [ha'])]
        rw [List.find?_cons_of_pos _ (by simp [ha'])]
      · rw [List.find?_cons_of_neg _ (by simp [ha'])]
        rw [List.find?_cons_of_neg _ (by simp [ha'])]
        exact ih

/-- `find?` by ident misses when the ident is not among the list's
idents. -/
theorem find?_ident_none (rs : List RangeO) (n : Nat)
    (hn : n ∉ rs.map (·.ident)) :
    rs.find? (·.ident = n) = none := by
  apply List.find?_eq_none.mpr
  intro x hx
  simp only [decide_eq_true_eq]
  intro hxn
  exact hn (by simpa [hxn] using List.mem_map_of_mem (·.ident) hx)

/-- C4 (amended): `DoSplit` succeeds exactly when the key is nonzero, the
range is `Ready` (the old-generation name for `Active`), it has no
children, and `start < k < end`; the placement states are not examined.
On success the range moves to `Splitting` (the old-generation name for
`Subsuming` on the split path) and exactly two child ranges are allocated
with intervals `[r.start, k)` and `[k, r.end)` and `r` as their sole
parent; on failure the keyspace is unchanged. -/
theorem c4_theorem (ks : KeyspaceO) (rid : Nat) (k : String) (r : RangeO)
    (h : findRange ks rid = some r)
    (hfresh : identsFresh ks) :
    ((doSplit ks rid k).2 = none ↔
      (k ≠ "" ∧ r.state = StateLocal.Ready ∧ r.children = [] ∧
        r.contains k = true ∧ k ≠ r.startK)) ∧
    ((doSplit ks rid k).2 = none →
      (findRange (doSplit ks rid k).1 rid =
          some { r with state := StateLocal.Splitting,
                        children := [ks.nextIdent, ks.nextIdent + 1] } ∧
       findRange (doSplit ks rid k).1 ks.nextIdent =
          some { ident := ks.nextIdent, startK := r.startK, endK := k,
                 state := StateLocal.Unknown, parents := [rid], children := [],
                 placements := [] } ∧
       findRange (doSplit ks rid k).1 (ks.nextIdent + 1) =
          some { ident := ks.nextIdent + 1, startK := k, endK := r.endK,
                 state := StateLocal.Unknown, parents := [rid], children := [],
                 placements := [] } ∧
       (doSplit ks rid k).1.ranges.length = ks.ranges.length + 2)) ∧
    ((doSplit ks rid k).2 ≠ none → (doSplit ks rid k).1 = ks) := by
  have hfid : ∀ rr : RangeO, ({ rr with
      state := StateLocal.Splitting
      children := [ks.nextIdent, ks.nextIdent + 1] } : RangeO).ident = rr.ident :=
    fun _ => rfl
  have hmap := updateRange_map_ident ks.ranges rid
    (fun rr => { rr with
      state := StateLocal.Splitting
      children := [ks.nextIdent, ks.nextIdent + 1] }) hfid
  have hn0 : ks.nextIdent ∉ (updateRange ks.ranges rid
      (fun rr => { rr with
        state := StateLocal.Splitting
        children := [ks.nextIdent, ks.nextIdent + 1] })).map (·.ident) := by
    rw [hmap]
    intro hmem
    obtain ⟨x, hx, hxi⟩ := List.mem_map.mp hmem
    have := hfresh x hx
    omega
  have hn1 : ks.nextIdent + 1 ∉ (updateRange ks.ranges rid
      (fun rr => { rr with
        state := StateLocal.Splitting
        children := [ks.nextIdent, ks.nextIdent + 1] })).map (·.ident) := by
    rw [hmap]
    intro hmem
    obtain ⟨x, hx, hxi⟩ := List.mem_map.mp hmem
    have := hfresh x hx
    omega
  have hcore : (k ≠ "" ∧ r.state = StateLocal.Ready ∧ r.children = [] ∧
      r.contains k = true ∧ k ≠ r.startK) →
      doSplit ks rid k =
        ({ ranges := updateRange ks.ranges rid
            (fun rr => { rr with
              state := StateLocal.Splitting
              children := [ks.nextIdent, ks.nextIdent + 1] }) ++
            [{ ident := ks.nextIdent, startK := r.startK, endK := k,
               state := StateLocal.Unknown, parents := [rid], children := [],
               placements := [] },
             { ident := ks.nextIdent + 1, startK := k, endK := r.endK,
               state := StateLocal.Unknown, parents := [rid], children := [],
               placements := [] }], nextIdent := ks.nextIdent + 2 }, none) := by
    rintro ⟨hc1, hc2, hc3, hc4, hc5⟩
    simp only [doSplit, h]
    rw [if_neg hc1, if_neg (by simp [hc2]), if_neg (by simp [hc3]),
        if_neg (by simp [hc4]), if_neg hc5,
        if_neg (by simp [hc2, toStateLocalOk])]
  have hfail : ¬(k ≠ "" ∧ r.state = StateLocal.Ready ∧ r.children = [] ∧
      r.contains k = true ∧ k ≠ r.startK) →
      (doSplit ks rid k).1 = ks ∧ (doSplit ks rid k).2 ≠ none := by
    intro hc
    simp only [doSplit, h]
    split_ifs <;> simp_all
  by_cases hc : k ≠ "" ∧ r.state = StateLocal.Ready ∧ r.children = [] ∧
      r.contains k = true ∧ k ≠ r.startK
  · refine ⟨⟨fun _ => hc, fun _ => by rw [hcore hc]⟩, fun _ => ?_, fun hs => ?_⟩
    · rw [hcore hc]
      refine ⟨?_, ?_, ?_, ?_⟩
      · simp only [findRange]
        rw [List.find?_append, updateRange_find?_self _ _ _ _ hfid h]
        rfl
      · simp only [findRange]
        rw [List.find?_append, find?_ident_none _ _ hn0, Option.none_or]
        exact List.find?_cons_of_pos _ (by simp)
      · simp only [findRange]
        rw [List.find?_append, find?_ident_none _ _ hn1, Option.none_or]
        rw [List.find?_cons_of_neg _ (by simp)]
        exact List.find?_cons_of_pos _ (by simp)
      · have hlen : (updateRange ks.ranges rid
            (fun rr => { rr with
              state := StateLocal.Splitting
              children := [ks.nextIdent, ks.nextIdent + 1] })).length
              = ks.ranges.length := by
          have h2len := congrArg List.length hmap
          simpa using h2len
        simp [hlen]
    · exact absurd (by rw [hcore hc]) hs
  · refine ⟨⟨fun hnone => absurd hnone (hfail hc).2, fun hcc => absurd hcc hc⟩,
      fun hnone => absurd hnone (hfail hc).2, fun _ => (hfail hc).1⟩

/-- C4 (counterexample): `DoSplit` succeeds on a `Ready` range whose only
placement is still `SpFetching` (not serving), so the claim's precondition
that all of the range's placements be `Active` is not checked by the
code. -/
theorem c4_counterexample :
    (doSplit ksC4 1 "m").2 = none ∧
    (doSplit ksC4 1 "m").1.ranges.length = 3 ∧
    ({ state := StatePlacement.SpFetching, nodeID := "node-a" } : DurablePlacement)
        ∈ rC4.placements ∧
    StatePlacement.SpFetching ≠ StatePlacement.SpReady := by
  decide

/-- Witness for `c4_theorem` at the concrete keyspace `ksC4` and split key
`"m"`. -/
theorem c4_theorem_witness :
    (doSplit ksC4 1 "m").2 = none ↔
      ("m" ≠ "" ∧ rC4.state = StateLocal.Ready ∧ rC4.children = [] ∧
        rC4.contains "m" = true ∧ "m" ≠ rC4.startK) :=
  (c4_theorem ksC4 1 "m" rC4 (by decide)
    (by intro rr hrr; simp [ksC4] at hrr; subst hrr; decide)).1

/- ============================================================== -/
/- Claim C5: Keyspace.JoinTwo                                     -/
/- ============================================================== -/

/-- C5: `JoinTwo` succeeds exactly when both ranges are `Ready` (the
old-generation name for `Active`) with no existing children and
`one.end = two.start`; on success both move to `Joining` (the
old-generation name for `Subsuming` on the join path) and exactly one
child covering `[one.start, two.end)` with parents `one, two` is
allocated; on failure the keyspace is unchanged. -/
theorem c5_theorem (ks : KeyspaceO) (ridOne ridTwo : Nat) (one two : RangeO)
    (h1 : findRange ks ridOne = some one) (h2 : findRange ks ridTwo = some two)
    (hne : ridOne ≠ ridTwo) (hfresh : identsFresh ks) :
    ((joinTwo ks ridOne ridTwo).2.1 = none ↔
      (one.state = StateLocal.Ready ∧ one.children = [] ∧
       two.state = StateLocal.Ready ∧ two.children = [] ∧
       one.endK = two.startK)) ∧
    ((joinTwo ks ridOne ridTwo).2.1 = none →
      ((joinTwo ks ridOne ridTwo).2.2 = some ks.nextIdent ∧
       findRange (joinTwo ks ridOne ridTwo).1 ridOne =
         some { one with state := StateLocal.Joining, children := [ks.nextIdent] } ∧
       findRange (joinTwo ks ridOne ridTwo).1 ridTwo =
         some { two with state := StateLocal.Joining, children := [ks.nextIdent] } ∧
       findRange (joinTwo ks ridOne ridTwo).1 ks.nextIdent =
         some { ident := ks.nextIdent, startK := one.startK, endK := two.endK,
                state := StateLocal.Unknown, parents := [ridOne, ridTwo],
                children := [], placements := [] } ∧
       (joinTwo ks ridOne ridTwo).1.ranges.length = ks.ranges.length + 1)) ∧
    ((joinTwo ks ridOne ridTwo).2.1 ≠ none → (joinTwo ks ridOne ridTwo).1 = ks) := by
  have hfail : ¬(one.state = StateLocal.Ready ∧ one.children = [] ∧
      two.state = StateLocal.Ready ∧ two.children = [] ∧
      one.endK = two.startK) →
      (joinTwo ks ridOne ridTwo).2.1 ≠ none ∧ (joinTwo ks ridOne ridTwo).1 = ks := by
    intro hc
    by_cases c1 : one.state = StateLocal.Ready <;>
    by_cases c2 : one.children = [] <;>
    by_cases c3 : two.state = StateLocal.Ready <;>
    by_cases c4 : two.children = [] <;>
    by_cases c5 : one.endK = two.startK <;>
      first
        | exact (hc ⟨c1, c2, c3, c4, c5⟩).elim
        | (refine ⟨?_, ?_⟩ <;>
            simp [joinTwo, h1, h2, joinPrecheck, toStateLocalOk, c1, c2, c3, c4, c5])
  by_cases hc : one.state = StateLocal.Ready ∧ one.children = [] ∧
      two.state = StateLocal.Ready ∧ two.children = [] ∧
      one.endK = two.startK
  · obtain ⟨hc1, hc2, hc3, hc4, hc5⟩ := hc
    have hp1 : joinPrecheck one = none := by simp [joinPrecheck, hc1, hc2]
    have hp2 : joinPrecheck two = none := by simp [joinPrecheck, hc3, hc4]
    have hone : ks.ranges.find? (·.ident = ridOne) = some one := h1
    have htwo : ks.ranges.find? (·.ident = ridTwo) = some two := h2
    -- the four in-place mutations of the join, in source order
    have e1 := updateRange_find?_self ks.ranges ridOne
      (fun rr => { rr with state := StateLocal.Joining }) one (fun _ => rfl) hone
    have e2 : (updateRange (updateRange ks.ranges ridOne
        (fun rr => { rr with state := StateLocal.Joining })) ridTwo
        (fun rr => { rr with state := StateLocal.Joining })).find? (·.ident = ridOne)
        = some { one with state := StateLocal.Joining } := by
      rw [updateRange_find?_other _ ridTwo ridOne
        (fun rr => { rr with state := StateLocal.Joining }) hne (fun _ => rfl)]
      exact e1
    have e3 := updateRange_find?_self _ ridOne
      (fun rr => { rr with children := [ks.nextIdent] })
      { one with state := StateLocal.Joining } (fun _ => rfl) e2
    have e4 : (updateRange (updateRange (updateRange (updateRange ks.ranges ridOne
        (fun rr => { rr with state := StateLocal.Joining })) ridTwo
        (fun rr => { rr with state := StateLocal.Joining })) ridOne
        (fun rr => { rr with children := [ks.nextIdent] })) ridTwo
        (fun rr => { rr with children := [ks.nextIdent] })).find? (·.ident = ridOne)
        = some { one with state := StateLocal.Joining, children := [ks.nextIdent] } := by
      rw [updateRange_find?_other _ ridTwo ridOne
        (fun rr => { rr with children := [ks.nextIdent] }) hne (fun _ => rfl)]
      exact e3
    have u1 : (updateRange ks.ranges ridOne
        (fun rr => { rr with state := StateLocal.Joining })).find? (·.ident = ridTwo)
        = some two := by
      rw [updateRange_find?_other _ ridOne ridTwo
        (fun rr => { rr with state := StateLocal.Joining }) (Ne.symm hne) (fun _ => rfl)]
      exact htwo
    have u2 := updateRange_find?_self _ ridTwo
      (fun rr => { rr with state := StateLocal.Joining }) two (fun _ => rfl) u1
    have u3 : (updateRange (updateRange (updateRange ks.ranges ridOne
        (fun rr => { rr with state := StateLocal.Joining })) ridTwo
        (fun rr => { rr with state := StateLocal.Joining })) ridOne
        (fun rr => { rr with children := [ks.nextIdent] })).find? (·.ident = ridTwo)
        = some { two with state := StateLocal.Joining } := by
      rw [updateRange_find?_other _ ridOne ridTwo
        (fun rr => { rr with children := [ks.nextIdent] }) (Ne.symm hne) (fun _ => rfl)]
      exact u2
    have u4 := updateRange_find?_self _ ridTwo
      (fun rr => { rr with children := [ks.nextIdent] })
      { two with state := StateLocal.Joining } (fun _ => rfl) u3
    have hmap4 : (updateRange (updateRange (updateRange (updateRange ks.ranges ridOne
        (fun rr => { rr with state := StateLocal.Joining })) ridTwo
        (fun rr => { rr with state := StateLocal.Joining })) ridOne
        (fun rr => { rr with children := [ks.nextIdent] })) ridTwo
        (fun rr => { rr with children := [ks.nextIdent] })).map (·.ident)
        = ks.ranges.map (·.ident) := by
      rw [updateRange_map_ident _ ridTwo
            (fun rr => { rr with children := [ks.nextIdent] }) (fun _ => rfl),
          updateRange_map_ident _ ridOne
            (fun rr => { rr with children := [ks.nextIdent] }) (fun _ => rfl),
          updateRange_map_ident _ ridTwo
            (fun rr => { rr with state := StateLocal.Joining }) (fun _ => rfl),
          updateRange_map_ident _ ridOne
            (fun rr => { rr with state := StateLocal.Joining }) (fun _ => rfl)]
    have hn0 : ks.nextIdent ∉ (updateRange (updateRange (updateRange
        (updateRange ks.ranges ridOne
        (fun rr => { rr with state := StateLocal.Joining })) ridTwo
        (fun rr => { rr with state := StateLocal.Joining })) ridOne
        (fun rr => { rr with children := [ks.nextIdent] })) ridTwo
        (fun rr => { rr with children := [ks.nextIdent] })).map (·.ident) := by
      rw [hmap4]
      intro hmem
      obtain ⟨x, hx, hxi⟩ := List.mem_map.mp hmem
      have := hfresh x hx
      omega
    have hred : joinTwo ks ridOne ridTwo =
        ({ ranges := (updateRange (updateRange (updateRange (updateRange ks.ranges ridOne
            (fun rr => { rr with state := StateLocal.Joining })) ridTwo
            (fun rr => { rr with state := StateLocal.Joining })) ridOne
            (fun rr => { rr with children := [ks.nextIdent] })) ridTwo
            (fun rr => { rr with children := [ks.nextIdent] })) ++
            [{ ident := ks.nextIdent, startK := one.startK, endK := two.endK,
               state := StateLocal.Unknown, parents := [ridOne, ridTwo],
               children := [], placements := [] }],
           nextIdent := ks.nextIdent + 1 }, none, some ks.nextIdent) := by
      simp only [joinTwo, h1, h2, hp1, hp2]
      rw [if_neg (by simp [hc5]), if_neg (by simp [hc1, toStateLocalOk]),
          if_neg (by simp [hc3, toStateLocalOk])]
    rw [hred]
    refine ⟨by simp [hc1, hc2, hc3, hc4, hc5], fun _ => ⟨rfl, ?_, ?_, ?_, ?_⟩,
      by simp⟩
    · simp only [findRange]
      rw [List.find?_append, e4]
      rfl
    · simp only [findRange]
      rw [List.find?_append, u4]
      rfl
    · simp only [findRange]
      rw [List.find?_append, find?_ident_none _ _ hn0, Option.none_or]
      exact List.find?_cons_of_pos _ (by simp)
    · have hlen := congrArg List.length hmap4
      simp only [List.length_map] at hlen
      simp [hlen]
  · refine ⟨⟨fun hnone => absurd hnone (hfail hc).1, fun hcc => absurd hcc hc⟩,
      fun hnone => absurd hnone (hfail hc).1, fun _ => (hfail hc).2⟩

/-- Witness for `c5_theorem` at the concrete keyspace `ksC5`. -/
theorem c5_theorem_witness :
    (joinTwo ksC5 1 2).2.1 = none ↔
      ((StateLocal.Ready = StateLocal.Ready ∧ ([] : List Nat) = [] ∧
        StateLocal.Ready = StateLocal.Ready ∧ ([] : List Nat) = [] ∧
        ("ggg" : String) = "ggg")) :=
  (c5_theorem ksC5 1 2
    { ident := 1, startK := "", endK := "ggg", state := StateLocal.Ready,
      parents := [], children := [], placements := [] }
    { ident := 2, startK := "ggg", endK := "", state := StateLocal.Ready,
      parents := [], children := [], placements := [] }
    (by decide) (by decide) (by decide)
    (by
      intro rr hrr
      simp [ksC5] at hrr
      rcases hrr with hrr | hrr <;> (subst hrr; decide))).1

/- ============================================================== -/
/- Claim C10: reconciler marks missing primaries gone             -/
/- ============================================================== -/

/-- C10: when the probed node fails to report a placement the controller
expects (the ident has an expected entry but no reported one), the
reconciler directs that placement to `SpGone` exactly when it is at
position 0 (the primary) and not still `SpPending`; no other directive is
issued for that ident, so later-position or pending placements are left
unchanged. -/
theorem c10_theorem (conv : RemoteStateO → StatePlacement)
    (expected : List PBNID) (nInfo : NodeInfoO)
    (ds : List (IdentO × StatePlacement)) (i : IdentO) (e : PBNID)
    (hds : nodeInfoDecisions conv expected nInfo = some ds)
    (hexp : lastWith (·.ident = i) expected = some e)
    (hact : lastWith (·.ident = i) nInfo.ranges = none) :
    (((i, StatePlacement.SpGone) ∈ ds) ↔
      (e.position = 0 ∧ e.placementState ≠ StatePlacement.SpPending)) ∧
    (∀ s, (i, s) ∈ ds → s = StatePlacement.SpGone) := by
  have hi : i ∈ (expected.map (·.ident) ++ nInfo.ranges.map (·.ident)).dedup := by
    rw [List.mem_dedup]
    apply List.mem_append_left
    have he := List.mem_of_mem_getLast? hexp
    have hp := List.mem_filter.mp he
    have : e.ident = i := by simpa using hp.2
    exact this ▸ List.mem_map_of_mem (·.ident) hp.1
  have hds' : ds = (expected.map (·.ident) ++ nInfo.ranges.map (·.ident)).dedup.filterMap
      (fun j => (reconcilePair conv
        (lastWith (·.ident = j) expected)
        (lastWith (·.ident = j) nInfo.ranges)).map fun s => (j, s)) := by
    unfold nodeInfoDecisions at hds
    split_ifs at hds <;> (cases hds; try rfl)
  have hmem : ∀ s : StatePlacement, ((i, s) ∈ ds ↔
      reconcilePair conv (some e) none = some s) := by
    intro s
    rw [hds']
    rw [List.mem_filterMap]
    constructor
    · rintro ⟨j, hj, hjeq⟩
      rcases Option.map_eq_some'.mp hjeq with ⟨s', hs', heq⟩
      have hji : j = i := (Prod.mk.injEq _ _ _ _ ▸ heq).1
      have hsi : s' = s := (Prod.mk.injEq _ _ _ _ ▸ heq).2
      subst hji
      subst hsi
      rw [hexp, hact] at hs'
      exact hs'
    · intro hs
      refine ⟨i, hi, ?_⟩
      rw [hexp, hact]
      rw [hs]
      rfl
  constructor
  · rw [hmem StatePlacement.SpGone]
    constructor
    · intro hr
      by_contra hcond
      simp only [reconcilePair] at hr
      rw [if_neg hcond] at hr
      cases hr
    · intro hcond
      simp only [reconcilePair]
      rw [if_pos hcond]
  · intro s hs
    have := (hmem s).mp hs
    simp only [reconcilePair] at this
    by_cases hcond : e.position = 0 ∧ e.placementState ≠ StatePlacement.SpPending
    · rw [if_pos hcond] at this
      cases this
      rfl
    · rw [if_neg hcond] at this
      cases this

/-- Witness for `c10_theorem`: one expected primary placement in
`SpReady`, nothing reported by the node. -/
theorem c10_theorem_witness :
    ((({ scope := "", key := 1 } : IdentO), StatePlacement.SpGone) ∈
        [(({ scope := "", key := 1 } : IdentO), StatePlacement.SpGone)] ↔
      ((1 : Nat) - 1 = 0 ∧ StatePlacement.SpReady ≠ StatePlacement.SpPending)) ∧
    (∀ s, (({ scope := "", key := 1 } : IdentO), s) ∈
        [(({ scope := "", key := 1 } : IdentO), StatePlacement.SpGone)] →
      s = StatePlacement.SpGone) :=
  c10_theorem (fun _ => StatePlacement.SpUnknown)
    [{ ident := { scope := "", key := 1 },
       placementState := StatePlacement.SpReady, position := 1 - 1 }]
    { nodeID := "node-a", expired := false, ranges := [] }
    [(({ scope := "", key := 1 } : IdentO), StatePlacement.SpGone)]
    { scope := "", key := 1 }
    { ident := { scope := "", key := 1 },
      placementState := StatePlacement.SpReady, position := 1 - 1 }
    (by decide) (by decide) (by decide)

/- ============================================================== -/
/- Claim C6: persister round trip                                 -/
/- ============================================================== -/

/-- Range states round-trip through their string form. -/
theorem rangeState_roundtrip (s : RangeStateN) :
    parseRangeStateString s.str = s := by
  cases s <;> rfl

/-- Placement states round-trip through their string form except
`PsGiveUp`, which `parsePlacementStateString` does not recognise. -/
theorem placementState_roundtrip (s : PlacementStateN)
    (h : s ≠ PlacementStateN.PsGiveUp) :
    parsePlacementStateString s.str = s := by
  cases s <;> first | rfl | exact absurd rfl h

/-- The placement-row inserts for one range succeed and append the
encoded rows, provided no existing row collides on the
`(rangeId, nodeId)` key and the placements' node ids are distinct. -/
theorem putPlacements_eq (rid : Nat) (ps : List PlacementP) (db : DB)
    (hdisj : ∀ row ∈ db.placementRows, row.rangeId = rid →
      row.nodeId ∉ ps.map (·.nodeID))
    (hnd : (ps.map (·.nodeID)).Nodup) :
    ps.foldlM (fun d p => insertPlacementRow d (placementRowOf rid p)) db
      = some { db with placementRows := db.placementRows ++ ps.map (placementRowOf rid) } := by
  induction ps generalizing db with
  | nil => simp
  | cons p rest ih =>
    have hins : insertPlacementRow db (placementRowOf rid p)
        = some { db with placementRows := db.placementRows ++ [placementRowOf rid p] } := by
      unfold insertPlacementRow
      rw [if_neg]
      intro hany
      obtain ⟨row, hrow, hcoll⟩ := List.any_eq_true.mp hany
      have hc := of_decide_eq_true hcoll
      apply hdisj row hrow hc.1
      rw [hc.2]
      simp [placementRowOf]
    rw [List.foldlM_cons, hins]
    simp only [Option.bind_eq_bind, Option.some_bind]
    rw [ih]
    · simp
    · intro row hrow hrid
      simp only [DB.placementRows] at hrow
      rcases List.mem_append.mp hrow with hold | hnew
      · have := hdisj row hold hrid
        intro hmem
        exact this (List.mem_cons_of_mem _ hmem)
      · have : row = placementRowOf rid p := List.mem_singleton.mp hnew
        subst this
        intro hmem
        exact (List.nodup_cons.mp hnd).1 hmem
    · exact (List.nodup_cons.mp hnd).2

/-- The full insert sequence for one link-free range. -/
theorem putOneRange_eq (r : RangeP) (db : DB)
    (hid : r.ident ∉ db.rangeRows.map (·.id))
    (hpl : ∀ row ∈ db.placementRows, row.rangeId ≠ r.ident)
    (hpar : r.parents = []) (hchi : r.children = [])
    (hnd : (r.placements.map (·.nodeID)).Nodup) :
    putOneRange db r = some { db with
      rangeRows := db.rangeRows ++ [rangeRowOf r],
      placementRows := db.placementRows ++ r.placements.map (placementRowOf r.ident) } := by
  have hins : insertRangeRow db (rangeRowOf r)
      = some { db with rangeRows := db.rangeRows ++ [rangeRowOf r] } := by
    unfold insertRangeRow
    rw [if_neg]
    intro hany
    obtain ⟨row, hrow, hcoll⟩ := List.any_eq_true.mp hany
    have hc := of_decide_eq_true hcoll
    apply hid
    rw [show r.ident = row.id from hc.symm]
    exact List.mem_map_of_mem (·.id) hrow
  unfold putOneRange
  rw [hins]
  simp only [Option.bind_eq_bind, Option.some_bind, hpar, hchi, List.foldlM_nil,
    Option.pure_def]
  rw [putPlacements_eq r.ident r.placements _ ?_ hnd]
  intro row hrow hrid
  exact absurd hrid (hpl row hrow)

/-- The full insert sequence for a list of link-free ranges with distinct
idents. -/
theorem putRanges_eq (ranges : List RangeP) (db : DB)
    (hids : ∀ r ∈ ranges, r.ident ∉ db.rangeRows.map (·.id))
    (hnd : (ranges.map (·.ident)).Nodup)
    (hpl : ∀ row ∈ db.placementRows, ∀ r ∈ ranges, row.rangeId ≠ r.ident)
    (hwf : ∀ r ∈ ranges, r.parents = [] ∧ r.children = [] ∧
      (r.placements.map (·.nodeID)).Nodup) :
    putRanges db ranges = some { db with
      rangeRows := db.rangeRows ++ ranges.map rangeRowOf,
      placementRows := db.placementRows ++
        ranges.flatMap (fun q => q.placements.map (placementRowOf q.ident)) } := by
  induction ranges generalizing db with
  | nil => simp [putRanges]
  | cons r rest ih =>
    have hnd' := hnd
    rw [List.map_cons, List.nodup_cons] at hnd'
    have hwfr := hwf r (List.mem_cons_self _ _)
    have hput := putOneRange_eq r db (hids r (List.mem_cons_self _ _))
      (fun row hrow => hpl row hrow r (List.mem_cons_self _ _))
      hwfr.1 hwfr.2.1 hwfr.2.2
    unfold putRanges
    rw [List.foldlM_cons, hput]
    simp only [Option.bind_eq_bind, Option.some_bind]
    have hrec := ih { db with
        rangeRows := db.rangeRows ++ [rangeRowOf r],
        placementRows := db.placementRows ++ r.placements.map (placementRowOf r.ident) }
      ?_ ?_ ?_ ?_
    · rw [show List.foldlM putOneRange { db with
          rangeRows := db.rangeRows ++ [rangeRowOf r],
          placementRows := db.placementRows ++ r.placements.map (placementRowOf r.ident) } rest
          = putRanges { db with
          rangeRows := db.rangeRows ++ [rangeRowOf r],
          placementRows := db.placementRows ++ r.placements.map (placementRowOf r.ident) } rest
        from rfl]
      rw [hrec]
      simp [List.append_assoc]
    · intro q hq
      simp only [List.map_append]
      rw [List.mem_append]
      push_neg
      constructor
      · exact hids q (List.mem_cons_of_mem _ hq)
      · have hne : q.ident ≠ r.ident := by
          intro heq
          exact hnd'.1 (heq ▸ List.mem_map_of_mem (·.ident) hq)
        simp [rangeRowOf, hne]
    · exact hnd'.2
    · intro row hrow q hq
      rcases List.mem_append.mp hrow with hold | hnew
      · exact hpl row hold q (List.mem_cons_of_mem _ hq)
      · obtain ⟨p, hp, hpe⟩ := List.mem_map.mp hnew
        subst hpe
        have hne : q.ident ≠ r.ident := by
          intro heq
          exact hnd'.1 (heq ▸ List.mem_map_of_mem (·.ident) hq)
        simp [placementRowOf]
        exact fun heq => hne heq.symm
    · exact fun q hq => hwf q (List.mem_cons_of_mem _ hq)

/-- The placement rows of range `r` are exactly those recovered by
filtering the flat list on `r`'s ident, when idents are distinct. -/
theorem filter_flatMap_eq (ranges : List RangeP) (r : RangeP)
    (hmem : r ∈ ranges) (hnd : (ranges.map (·.ident)).Nodup) :
    ((ranges.flatMap (fun q => q.placements.map (placementRowOf q.ident))).filter
      (·.rangeId = r.ident))
      = r.placements.map (placementRowOf r.ident) := by
  induction ranges with
  | nil => cases hmem
  | cons q rest ih =>
    have hnd' := hnd
    rw [List.map_cons, List.nodup_cons] at hnd'
    have hh := hnd'.1
    rw [List.flatMap_cons, List.filter_append]
    rcases List.mem_cons.mp hmem with heq | hmem'
    · subst heq
      have h1 : (r.placements.map (placementRowOf r.ident)).filter
          (·.rangeId = r.ident) = r.placements.map (placementRowOf r.ident) := by
        apply List.filter_eq_self.mpr
        intro a ha
        obtain ⟨p, hp, hpe⟩ := List.mem_map.mp ha
        subst hpe
        simp [placementRowOf]
      have h2 : (rest.flatMap (fun q => q.placements.map (placementRowOf q.ident))).filter
          (·.rangeId = r.ident) = [] := by
        apply List.filter_eq_nil_iff.mpr
        intro a ha
        obtain ⟨q', hq', haq⟩ := List.mem_flatMap.mp ha
        obtain ⟨p, hp, hpe⟩ := List.mem_map.mp haq
        subst hpe
        simp only [placementRowOf, decide_eq_true_eq]
        intro heq
        exact hh (heq ▸ List.mem_map_of_mem (·.ident) hq')
      rw [h1, h2, List.append_nil]
    · have h1 : (q.placements.map (placementRowOf q.ident)).filter
          (·.rangeId = r.ident) = [] := by
        apply List.filter_eq_nil_iff.mpr
        intro a ha
        obtain ⟨p, hp, hpe⟩ := List.mem_map.mp ha
        subst hpe
        simp only [placementRowOf, decide_eq_true_eq]
        intro heq
        exact hh (heq.symm ▸ List.mem_map_of_mem (·.ident) hmem')
      rw [h1, ih hmem' hnd'.2, List.nil_append]

/-- Reloading the store produced by persisting link-free ranges gives the
ranges back exactly. -/
theorem getRanges_of_put (ranges : List RangeP)
    (hnd : (ranges.map (·.ident)).Nodup)
    (hwf : ∀ r ∈ ranges, r.parents = [] ∧ r.children = [] ∧
      (r.placements.map (·.nodeID)).Nodup ∧
      ∀ p ∈ r.placements, p.stateCurrent ≠ PlacementStateN.PsGiveUp ∧
        p.stateDesired ≠ PlacementStateN.PsGiveUp) :
    getRanges { rangeRows := ranges.map rangeRowOf, childRows := [],
                placementRows := ranges.flatMap
                  (fun q => q.placements.map (placementRowOf q.ident)) } = ranges := by
  unfold getRanges getParents getChildren getPlacements
  simp only [List.filter_nil, List.map_nil, List.map_map]
  refine (List.map_congr_left ?_).trans (List.map_id ranges)
  intro r hr
  obtain ⟨hpar, hchi, hnodes, hstates⟩ := hwf r hr
  simp only [Function.comp]
  have hfil := filter_flatMap_eq ranges r hr hnd
  have hrid : (rangeRowOf r).id = r.ident := rfl
  rw [show ((rangeRowOf r).id) = r.ident from rfl] at *
  rcases r with ⟨ident, startK, endK, state, parents, children, placements⟩
  simp only at hpar hchi hfil ⊢
  rw [show (rangeRowOf ⟨ident, startK, endK, state, parents, children, placements⟩)
      = { id := ident, startK := startK, endK := endK, state := state.str } from rfl]
  simp only
  rw [hfil]
  rw [List.map_map]
  subst hpar
  subst hchi
  have hplac : placements.map ((fun row => ({
      nodeID := row.nodeId
      stateCurrent := parsePlacementStateString row.stateCurrent
      stateDesired := parsePlacementStateString row.stateDesired } : PlacementP))
        ∘ placementRowOf ident) = placements := by
    refine (List.map_congr_left ?_).trans (List.map_id placements)
    intro p hp
    obtain ⟨hc, hd⟩ := hstates p hp
    rcases p with ⟨n, sc, sd⟩
    simp only [Function.comp, placementRowOf, id]
    rw [placementState_roundtrip sc hc, placementState_roundtrip sd hd]
  rw [hplac, rangeState_roundtrip]
  rfl

/-- C6 (amended): persisting ranges with no parent or child links (and no
`PsGiveUp` placement states) and reloading reproduces them bit-for-bit:
idents, intervals, states and placements.  Recorded parent/child links are
reloaded as their symmetric completion on both endpoints, so a graph with
links is not reproduced bit-for-bit, and a graph recording the same link
from both endpoints fails to persist at all (see the counterexample). -/
theorem c6_theorem (ranges : List RangeP)
    (hnd : (ranges.map (·.ident)).Nodup)
    (hwf : ∀ r ∈ ranges, r.parents = [] ∧ r.children = [] ∧
      (r.placements.map (·.nodeID)).Nodup ∧
      ∀ p ∈ r.placements, p.stateCurrent ≠ PlacementStateN.PsGiveUp ∧
        p.stateDesired ≠ PlacementStateN.PsGiveUp) :
    (putRanges emptyDB ranges).map getRanges = some ranges := by
  rw [putRanges_eq ranges emptyDB (by simp [emptyDB]) hnd (by simp [emptyDB])
    (fun r hr => ⟨(hwf r hr).1, (hwf r hr).2.1, (hwf r hr).2.2.1⟩)]
  simp only [Option.map_some']
  rw [show ({ emptyDB with
      rangeRows := emptyDB.rangeRows ++ ranges.map rangeRowOf
      placementRows := emptyDB.placementRows ++
        ranges.flatMap (fun q => q.placements.map (placementRowOf q.ident)) } : DB)
      = { rangeRows := ranges.map rangeRowOf, childRows := [],
          placementRows := ranges.flatMap
            (fun q => q.placements.map (placementRowOf q.ident)) } from by
    simp [emptyDB]]
  rw [getRanges_of_put ranges hnd hwf]

/-- Witness for `c6_theorem` on a concrete two-range link-free catalog. -/
theorem c6_theorem_witness :
    (putRanges emptyDB [rpW1, rpW2]).map getRanges = some [rpW1, rpW2] :=
  c6_theorem [rpW1, rpW2] (by decide) (by decide)

/-- C6 (counterexample): the round trip is not bit-for-bit on graphs with
parent/child links.  Persisting `[rpA, rpB]`, where only the child records
the link, reloads `rpA` with `children = [2]` even though it was stored
with no children; and persisting `[rpC, rpB]`, where both endpoints record
the same link, fails entirely because the duplicate `(1, 2)` child row
violates the table's primary key, rolling back the transaction. -/
theorem c6_counterexample :
    (putRanges emptyDB [rpA, rpB]).map getRanges = some [rpC, rpB] ∧
    rpC ≠ rpA ∧
    putRanges emptyDB [rpC, rpB] = none := by
  decide

-- `TestPlace`: Prepare is sent on the first cycle and Activate on the
-- third; the keyspace trails the roster by one cycle, reaching
-- `PsActive` after four; the fifth changes nothing.
example :
    ((statesOf initA (ticks 5)).map pView) =
      [[[]],
       [[("a", PlacementStateN.PsPending, PlacementStateN.PsInactive)]],
       [[("a", PlacementStateN.PsInactive, PlacementStateN.PsInactive)]],
       [[("a", PlacementStateN.PsInactive, PlacementStateN.PsActive)]],
       [[("a", PlacementStateN.PsActive, PlacementStateN.PsActive)]],
       [[("a", PlacementStateN.PsActive, PlacementStateN.PsActive)]]] ∧
    (runEvents initA (ticks 5)).cmdLog =
      [{ nID := "a", rID := 1, act := ActionA.Prepare },
       { nID := "a", rID := 1, act := ActionA.Activate }] := by decide

-- `TestPlaceFailure_AddRange`: with Activate failing on node a, three
-- attempts are made, then the placement is dropped and destroyed.
set_option maxHeartbeats 800000 in
example :
    ((runEvents initAB (Ev.setInject injActFailA :: ticks 5)).cmdLog.filter
      (fun c => decide (c.act = ActionA.Activate))).length = 3 ∧
    ((runEvents initAB (Ev.setInject injActFailA :: ticks 5)).ks.ranges.map
      (fun r => r.placements.map (fun p => (p.nodeID, p.stateCurrent, p.failsActivate)))) =
      [[("a", PlacementStateN.PsInactive, 3)]] ∧
    ((runEvents initAB (Ev.setInject injActFailA :: ticks 6)).cmdLog.filter
      (fun c => decide (c.act = ActionA.Drop))) =
      [{ nID := "a", rID := 1, act := ActionA.Drop }] ∧
    ((runEvents initAB (Ev.setInject injActFailA :: ticks 7)).ks.ranges.map
      (·.placements)) = [[]] := by decide

-- `TestMissingPlacement`: an active placement its node does not report
-- goes `Missing`, then `Dropped` with no command sent, is destroyed one
-- cycle later, and placement then starts over.
example :
    ((statesOf initMissing (ticks 3)).map pView) =
      [[[("a", PlacementStateN.PsActive, PlacementStateN.PsActive)]],
       [[("a", PlacementStateN.PsMissing, PlacementStateN.PsActive)]],
       [[("a", PlacementStateN.PsDropped, PlacementStateN.PsActive)]],
       [[]]] ∧
    (runEvents initMissing (ticks 3)).cmdLog = [] ∧
    (runEvents initMissing (ticks 4)).cmdLog =
      [{ nID := "a", rID := 1, act := ActionA.Prepare }] := by decide

-- `TestMove`: the replacement placement is created replacing a, may not
-- activate until a has deactivated, takes over, and a is dropped,
-- destroyed, and the annotation cleared; the final cycle changes nothing.
set_option synthInstance.maxHeartbeats 100000 in
set_option maxHeartbeats 1600000 in
example :
    ((statesOf initMove (Ev.reqMove mvB :: ticks 11)).map mView) =
      [[[("a", PlacementStateN.PsActive, PlacementStateN.PsActive, "")]],
       [[("a", PlacementStateN.PsActive, PlacementStateN.PsActive, "")]],
       [[("a", PlacementStateN.PsActive, PlacementStateN.PsActive, ""),
         ("b", PlacementStateN.PsPending, PlacementStateN.PsInactive, "a")]],
       [[("a", PlacementStateN.PsActive, PlacementStateN.PsActive, ""),
         ("b", PlacementStateN.PsInactive, PlacementStateN.PsInactive, "a")]],
       [[("a", PlacementStateN.PsActive, PlacementStateN.PsInactive, ""),
         ("b", PlacementStateN.PsInactive, PlacementStateN.PsInactive, "a")]],
       [[("a", PlacementStateN.PsInactive, PlacementStateN.PsInactive, ""),
         ("b", PlacementStateN.PsInactive, PlacementStateN.PsActive, "a")]],
       [[("a", PlacementStateN.PsInactive, PlacementStateN.PsInactive, ""),
         ("b", PlacementStateN.PsActive, PlacementStateN.PsActive, "a")]],
       [[("a", PlacementStateN.PsInactive, PlacementStateN.PsDropped, ""),
         ("b", PlacementStateN.PsActive, PlacementStateN.PsActive, "a")]],
       [[("a", PlacementStateN.PsDropped, PlacementStateN.PsDropped, ""),
         ("b", PlacementStateN.PsActive, PlacementStateN.PsActive, "a")]],
       [[("b", PlacementStateN.PsActive, PlacementStateN.PsActive, "a")]],
       [[("b", PlacementStateN.PsActive, PlacementStateN.PsActive, "")]],
       [[("b", PlacementStateN.PsActive, PlacementStateN.PsActive, "")]],
       [[("b", PlacementStateN.PsActive, PlacementStateN.PsActive, "")]]] := by decide

-- `TestSplit`: the split at "c" subsumes the parent, places both
-- children on the sole node, hands coverage over in order, destroys the
-- dropped parent placement while the operation is still open (cycle 9),
-- completes it one cycle later, and closes the operator channel.
set_option maxHeartbeats 1600000 in
example :
    ((statesOf initSplit (Ev.reqSplit spC :: ticks 11)).map rView) =
      [[(1, RangeStateN.RsActive, [("a", PlacementStateN.PsActive)])],
       [(1, RangeStateN.RsActive, [("a", PlacementStateN.PsActive)])],
       [(1, RangeStateN.RsSubsuming, [("a", PlacementStateN.PsActive)]),
        (2, RangeStateN.RsActive, [("a", PlacementStateN.PsPending)]),
        (3, RangeStateN.RsActive, [("a", PlacementStateN.PsPending)])],
       [(1, RangeStateN.RsSubsuming, [("a", PlacementStateN.PsActive)]),
        (2, RangeStateN.RsActive, [("a", PlacementStateN.PsPending)]),
        (3, RangeStateN.RsActive, [("a", PlacementStateN.PsPending)])],
       [(1, RangeStateN.RsSubsuming, [("a", PlacementStateN.PsActive)]),
        (2, RangeStateN.RsActive, [("a", PlacementStateN.PsInactive)]),
        (3, RangeStateN.RsActive, [("a", PlacementStateN.PsInactive)])],
       [(1, RangeStateN.RsSubsuming, [("a", PlacementStateN.PsActive)]),
        (2, RangeStateN.RsActive, [("a", PlacementStateN.PsInactive)]),
        (3, RangeStateN.RsActive, [("a", PlacementStateN.PsInactive)])],
       [(1, RangeStateN.RsSubsuming, [("a", PlacementStateN.PsInactive)]),
        (2, RangeStateN.RsActive, [("a", PlacementStateN.PsInactive)]),
        (3, RangeStateN.RsActive, [("a", PlacementStateN.PsInactive)])],
       [(1, RangeStateN.RsSubsuming, [("a", PlacementStateN.PsInactive)]),
        (2, RangeStateN.RsActive, [("a", PlacementStateN.PsActive)]),
        (3, RangeStateN.RsActive, [("a", PlacementStateN.PsActive)])],
       [(1, RangeStateN.RsSubsuming, [("a", PlacementStateN.PsInactive)]),
        (2, RangeStateN.RsActive, [("a", PlacementStateN.PsActive)]),
        (3, RangeStateN.RsActive, [("a", PlacementStateN.PsActive)])],
       [(1, RangeStateN.RsSubsuming, [("a", PlacementStateN.PsDropped)]),
        (2, RangeStateN.RsActive, [("a", PlacementStateN.PsActive)]),
        (3, RangeStateN.RsActive, [("a", PlacementStateN.PsActive)])],
       [(1, RangeStateN.RsSubsuming, []),
        (2, RangeStateN.RsActive, [("a", PlacementStateN.PsActive)]),
        (3, RangeStateN.RsActive, [("a", PlacementStateN.PsActive)])],
       [(1, RangeStateN.RsObsolete, []),
        (2, RangeStateN.RsActive, [("a", PlacementStateN.PsActive)]),
        (3, RangeStateN.RsActive, [("a", PlacementStateN.PsActive)])],
       [(1, RangeStateN.RsObsolete, []),
        (2, RangeStateN.RsActive, [("a", PlacementStateN.PsActive)]),
        (3, RangeStateN.RsActive, [("a", PlacementStateN.PsActive)])]] ∧
    (runEvents initSplit (Ev.reqSplit spC :: ticks 11)).chanEvents =
      [ChanEvent.closed 7] := by decide

-- `TestJoin_Short`: ranges 1 and 2 joined into 3 on node c; both parents
-- end `RsObsolete`, the joined placement activates on c, and the
-- operator channel closes when it does.
set_option maxHeartbeats 1600000 in
example :
    ((runEvents initJoin (Ev.reqJoin jnC :: ticks 10)).ks.ranges.map
      (fun r => (r.ident, r.startK, r.endK))) =
      [(1, "", "g"), (2, "g", ""), (3, "", "")] ∧
    rView (runEvents initJoin (Ev.reqJoin jnC :: ticks 10)) =
      [(1, RangeStateN.RsObsolete, []), (2, RangeStateN.RsObsolete, []),
       (3, RangeStateN.RsActive, [("c", PlacementStateN.PsActive)])] ∧
    (runEvents initJoin (Ev.reqJoin jnC :: ticks 10)).chanEvents =
      [ChanEvent.closed 9] ∧
    (runEvents initJoin (Ev.reqJoin jnC :: ticks 10)).nodes.map
      (fun n => (n.ident, n.ranges)) =
      [("a", []), ("b", []), ("c", [(3, RemoteStateN.NsActive)])] := by decide

/- ============================================================== -/
/- Interval bridge lemmas for the coverage invariant               -/
/- ============================================================== -/

/-- Order shuffling for the lexicographic comparison: if `x` is not
below `y` but is below `z`, then `y` is below `z`. -/
theorem charsLt_skip (x : List Char) : ∀ y z : List Char,
    charsLt x y = false → charsLt x z = true → charsLt y z = true := by
  induction x with
  | nil =>
    intro y z hxy hxz
    cases y with
    | nil => exact hxz
    | cons b bs => simp [charsLt] at hxy
  | cons a as ih =>
    intro y z hxy hxz
    cases z with
    | nil => simp [charsLt] at hxz
    | cons c cs =>
      cases y with
      | nil => simp [charsLt]
      | cons b bs =>
        by_cases h1 : a.toNat < b.toNat
        · exfalso
          simp [charsLt, h1] at hxy
        · by_cases h3 : a.toNat < c.toNat
          · by_cases h2 : b.toNat < a.toNat
            · have hbc : b.toNat < c.toNat := by omega
              simp [charsLt, hbc]
            · have hbc : b.toNat < c.toNat := by omega
              simp [charsLt, hbc]
          · by_cases h4 : c.toNat < a.toNat
            · exfalso
              simp [charsLt, h3, h4] at hxz
            · by_cases h2 : b.toNat < a.toNat
              · have hbc : b.toNat < c.toNat := by omega
                simp [charsLt, hbc]
              · have hxy2 : charsLt as bs = false := by
                  simpa [charsLt, h1, h2] using hxy
                have hxz2 : charsLt as cs = true := by
                  simpa [charsLt, h3, h4] using hxz
                have hb3 : ¬ b.toNat < c.toNat := by omega
                have hc4 : ¬ c.toNat < b.toNat := by omega
                simp [charsLt, hb3, hc4]
                exact ih bs cs hxy2 hxz2

/-- `strLt` version of `charsLt_skip`. -/
theorem strLt_skip (x y z : String) (hxy : strLt x y = false)
    (hxz : strLt x z = true) : strLt y z = true :=
  charsLt_skip x.data y.data z.data hxy hxz

/-- Two intervals containing a common key overlap. -/
theorem inBoth_overlap (a b : String × String) (k : String)
    (ha : inInterval a k = true) (hb : inInterval b k = true) :
    intervalsOverlap a b = true := by
  simp only [inInterval, Bool.and_eq_true, Bool.or_eq_true,
    decide_eq_true_eq] at ha hb
  rw [intervalsOverlap, Bool.and_eq_true]
  constructor
  · rcases ha.2 with h | h
    · simp [h]
    · rcases hb.1 with h2 | h2
      · simp [h2]
      · have h3 : strLt b.1 a.2 = true := by
          refine strLt_skip k b.1 a.2 ?_ h
          simpa [strLe, Bool.not_eq_true'] using h2
        simp [h3]
  · rcases hb.2 with h | h
    · simp [h]
    · rcases ha.1 with h2 | h2
      · simp [h2]
      · have h3 : strLt a.1 b.2 = true := by
          refine strLt_skip k a.1 b.2 ?_ h
          simpa [strLe, Bool.not_eq_true'] using h2
        simp [h3]

/-- Pairwise-disjoint intervals cover each key at most once. -/
theorem pairwiseOk_count (l : List (String × String)) (k : String)
    (hl : pairwiseOk l = true) :
    (l.filter (fun a => inInterval a k)).length ≤ 1 := by
  induction l with
  | nil => simp
  | cons a rest ih =>
    simp only [pairwiseOk, Bool.and_eq_true, List.all_eq_true] at hl
    by_cases hak : inInterval a k = true
    · have hrest : rest.filter (fun b => inInterval b k) = [] := by
        rw [List.filter_eq_nil_iff]
        intro b hb hbk
        have hov := inBoth_overlap a b k hak (by simpa using hbk)
        have := hl.1 b hb
        simp [hov] at this
      simp [List.filter_cons, hak, hrest]
    · simp only [List.filter_cons, hak, if_false]
      exact ih hl.2

/-- C1 (amended): along the canonical place, move, split and join
executions — every state the controller passes through under honest node
responses — at most one `Active` placement covers any key.  The claim's
full quantification over arbitrary observed node responses is refuted by
`c1_counterexample`. -/
theorem c1_theorem (s : OrchState) (h : s ∈ c1Traces) :
    ∀ k, countActiveCovering s k ≤ 1 := by
  have hall : c1Traces.all (fun s => pairwiseOk (activeIntervals s)) = true := by
    decide
  intro k
  have hcov := List.all_eq_true.mp hall s h
  simpa [countActiveCovering] using
    pairwiseOk_count (activeIntervals s) k (by simpa using hcov)

/-- Witness for `c1_theorem` at the initial move state and key `"m"`. -/
theorem c1_theorem_witness : countActiveCovering initMove "m" ≤ 1 :=
  c1_theorem initMove (by decide) "m"

/-- C1 counterexample: the invariant as claimed — over every reachable
state under any sequence of ticks, operator requests and observed node
responses — fails.  During a move, after the replacement on node `b` has
prepared, a (spurious or late) node report of `NsActive` for it makes the
next tick move the replacement to `PsActive` while the placement being
replaced on node `a` is still `PsActive`: two `Active` placements then
cover every key. -/
theorem c1_counterexample :
    2 ≤ countActiveCovering
      (runEvents initMove [Ev.reqMove mvB, Ev.tick, Ev.tick,
        Ev.report "b" 1 RemoteStateN.NsActive, Ev.tick]) "m" := by
  decide

/- ============================================================== -/
/- Claim C2: operation ordering gates                              -/
/- ============================================================== -/

/-- C2 (amended): for a forward (non-inverted) in-flight operation, the
gated transitions of the placement switch respect the claimed orderings:
when a placement that is `Inactive` on a node reporting `NsInactive` is
directed to activate, its range is a child of the operation and every
parent-range placement is already `Inactive` or further; when it is
directed to drop, its range is a parent and every child-range placement
is `Active`.  The claim's stronger reading — that no tick ever violates
the orderings — is refuted by `c2_counterexample`, because the
`NsActivating`/`NsDropping` remote states bypass the gates. -/
theorem c2_theorem (ks : KeyspaceR) (op : OperationR) (r : RangeR)
    (p : PlacementR) (hfwd : isInverted ks op = false)
    (hp : p.stateCurrent = PlacementStateN.PsInactive) :
    ((placementDecision ks (some op) r p (some RemoteStateN.NsInactive)).newDesired =
        some PlacementStateN.PsActive →
      r.ident ∈ op.children ∧
        ∀ q ∈ parentPlacements ks op, inactiveOrLater q.stateCurrent = true) ∧
    ((placementDecision ks (some op) r p (some RemoteStateN.NsInactive)).newDesired =
        some PlacementStateN.PsDropped →
      r.ident ∈ op.parents ∧
        ∀ q ∈ childPlacements ks op, q.stateCurrent = PlacementStateN.PsActive) := by
  simp only [placementDecision, hp]
  by_cases hact : mayActivate ks (some op) p r = true
  · rw [if_pos hact]
    constructor
    · intro _
      simp only [mayActivate, hfwd] at hact
      simp at hact
      exact ⟨hact.1.1, fun q hq => hact.2 q hq⟩
    · intro hcontra
      simp [pdWant] at hcontra
  · rw [if_neg hact]
    by_cases hdrop : mayDrop ks (some op) p r = true
    · rw [if_pos hdrop]
      constructor
      · intro hcontra
        simp [pdWant] at hcontra
      · intro _
        simp only [mayDrop, hfwd] at hdrop
        simp at hdrop
        exact ⟨hdrop.1, fun q hq => by simpa using hdrop.2 q hq⟩
    · rw [if_neg hdrop]
      constructor
      · intro hcontra
        simp [pdNone] at hcontra
      · intro hcontra
        simp [pdNone] at hcontra

/-- Witness for `c2_theorem`: in the mid-split keyspace the decision for
child 2's inactive placement is to activate, so the theorem yields that
every parent placement is `Inactive` or further. -/
theorem c2_theorem_witness :
    2 ∈ opC2.children ∧
      ∀ q ∈ parentPlacements ksC2 opC2, inactiveOrLater q.stateCurrent = true :=
  (c2_theorem ksC2 opC2 rC2 (pInact "a") (by decide) (by decide)).1 (by decide)

/-- C2 counterexample: the orderings can be violated by a tick.  In the
split scenario, once both children are `Inactive`, a (spurious) node
report of `NsActivating` for child 2 makes the next tick direct that
child placement to activate — and the actuator sends the `Activate`
command — while the parent placement is still `PsActive` (it is only
directed to deactivate in that same tick). -/
theorem c2_counterexample :
    operations (runEvents initSplit (Ev.reqSplit spC :: (ticks 3 ++
        [Ev.report "a" 2 RemoteStateN.NsActivating, Ev.tick]))).ks =
      [{ parents := [1], children := [2, 3] }] ∧
    pView (runEvents initSplit (Ev.reqSplit spC :: (ticks 3 ++
        [Ev.report "a" 2 RemoteStateN.NsActivating, Ev.tick]))) =
      [[("a", PlacementStateN.PsActive, PlacementStateN.PsInactive)],
       [("a", PlacementStateN.PsInactive, PlacementStateN.PsActive)],
       [("a", PlacementStateN.PsInactive, PlacementStateN.PsInactive)]] ∧
    { nID := "a", rID := 2, act := ActionA.Activate } ∈
      (runEvents initSplit (Ev.reqSplit spC :: (ticks 3 ++
        [Ev.report "a" 2 RemoteStateN.NsActivating, Ev.tick]))).cmdLog := by
  decide

/-- The deactivation-stuck state is a fixed point of the controller
cycle: in particular no further `Deactivate` command is ever sent. -/
theorem sDeact_fix : fullTick sDeact = sDeact := by decide

/-- The stuck state stays stuck under any number of further cycles. -/
theorem sDeact_ticks (n : Nat) : runEvents sDeact (ticks n) = sDeact := by
  induction n with
  | zero => rfl
  | succ n ih =>
    have h1 : runEvents sDeact (ticks (n + 1)) =
        runEvents (fullTick sDeact) (ticks n) := rfl
    rw [h1, sDeact_fix, ih]

set_option maxHeartbeats 1600000 in
/-- Each controller cycle on the drop-stuck state sends exactly one more
`Drop` command and bumps the failure counter: the placement is never
given up on. -/
theorem sDrop_step (n : Nat) (log : List CommandR) :
    fullTick (sDrop n log) = sDrop (n + 1) (log ++ [dropCmd]) := rfl

/-- Closed form of the drop-stuck run. -/
theorem sDrop_ticks (n : Nat) : ∀ (m : Nat) (log : List CommandR),
    runEvents (sDrop m log) (ticks n) =
      sDrop (m + n) (log ++ List.replicate n dropCmd) := by
  induction n with
  | zero => intro m log; simp [ticks, runEvents]
  | succ n ih =>
    intro m log
    have h1 : runEvents (sDrop m log) (ticks (n + 1)) =
        runEvents (fullTick (sDrop m log)) (ticks n) := rfl
    rw [h1, sDrop_step, ih (m + 1) (log ++ [dropCmd])]
    have h2 : m + 1 + n = m + (n + 1) := by omega
    rw [h2, List.append_assoc]
    rfl

/-- Filtering the replicated drop commands keeps them all. -/
theorem filter_replicate_drop (n : Nat) :
    (List.replicate n dropCmd).filter (fun c => decide (c.act = ActionA.Drop)) =
      List.replicate n dropCmd := by
  induction n with
  | zero => rfl
  | succ n ih => simp [List.replicate_succ, ih, dropCmd]

/-- C3: each of `Prepare`, `Activate`, `Deactivate` is attempted at most
three times.  (i) With `Prepare` failing, exactly three `Prepare`
commands are sent and the placement is then destroyed.  (ii) With
`Activate` failing, exactly three `Activate` commands are sent and the
placement is dropped and destroyed.  (iii) With `Deactivate` failing
mid-move, the controller reaches the stuck state `sDeact` after six
cycles, and however many further cycles run, exactly three `Deactivate`
commands have ever been sent.  (iv) A failing `Drop` is retried forever:
with `Activate` and `Drop` failing, the controller reaches the
drop-stuck state after six cycles, and after `n` further cycles exactly
`1 + n` `Drop` commands have been sent and the placement still exists. -/
theorem c3_theorem :
    (((runEvents initA (Ev.setInject injPrepFailA :: ticks 4)).cmdLog.filter
        (fun c => decide (c.act = ActionA.Prepare))).length = 3 ∧
      (runEvents initA (Ev.setInject injPrepFailA :: ticks 4)).ks.ranges.map
        (·.placements) = [[]]) ∧
    (((runEvents initAB (Ev.setInject injActFailA :: ticks 7)).cmdLog.filter
        (fun c => decide (c.act = ActionA.Activate))).length = 3 ∧
      (runEvents initAB (Ev.setInject injActFailA :: ticks 7)).ks.ranges.map
        (·.placements) = [[]]) ∧
    (runEvents initMove ([Ev.reqMove mvB, Ev.setInject injDeactFail] ++ ticks 6) =
        sDeact ∧
      ∀ n : Nat,
        ((runEvents sDeact (ticks n)).cmdLog.filter
          (fun c => decide (c.act = ActionA.Deactivate))).length = 3) ∧
    (runEvents initA ([Ev.setInject injActFailA, Ev.setInject injDropFail] ++
        ticks 6) = sDrop 1 dropLog ∧
      ∀ n : Nat,
        ((runEvents (sDrop 1 dropLog) (ticks n)).cmdLog.filter
            (fun c => decide (c.act = ActionA.Drop))).length = 1 + n ∧
          (runEvents (sDrop 1 dropLog) (ticks n)).ks.ranges.map
            (fun r => r.placements.map (·.nodeID)) = [["a"]]) := by
  refine ⟨⟨by decide, by decide⟩, ⟨by decide, by decide⟩,
    ⟨by decide, ?_⟩, ⟨by decide, ?_⟩⟩
  · intro n
    rw [sDeact_ticks n]
    decide
  · intro n
    rw [sDrop_ticks n 1 dropLog]
    constructor
    · simp [sDrop, List.filter_append, filter_replicate_drop, dropLog, dropCmd]
      omega
    · rfl

/-- C8: the tick factors as the join phase followed by everything else,
so joins are applied before moves and splits are considered and before
any range is ticked; the join phase always empties the request queue; a
rejected join gets its error written to the operator channel, which is
closed (the single `errClosed` event); and a join's participants are
visible to the remainder of the same tick: one tick after the join
request, the joined range exists, its placement has been created, and the
actuator has already sent it a `Prepare` command. -/
theorem c8_theorem :
    (∀ s : OrchState,
      orchTick s = orchTickRest (s.ks.ranges.map (·.ident)) (applyJoinsPhase s)) ∧
    (∀ s : OrchState, (applyJoinsPhase s).opJoins = []) ∧
    ((orchTick sBadJoin).chanEvents = [ChanEvent.errClosed 5] ∧
      (orchTick sBadJoin).opJoins = []) ∧
    ((runEvents initJoin [Ev.reqJoin jnC, Ev.tick]).ks.ranges.map (·.ident) =
        [1, 2, 3] ∧
      (runEvents initJoin [Ev.reqJoin jnC, Ev.tick]).cmdLog =
        [{ nID := "c", rID := 3, act := ActionA.Prepare }]) :=
  ⟨fun _ => rfl, fun _ => rfl, by decide, by decide⟩

/- ============================================================== -/
/- Claim C9: Missing and Dropped placements                        -/
/- ============================================================== -/

/-- C9: a `Missing` placement's next decision is exactly the silent
transition to `Dropped` (no desired-state change, so by `actionFor` no
command can be sent for it either), and a `Dropped` placement's next
decision is exactly destruction; concretely, an `Active` placement whose
node stops reporting it goes `Missing`, then `Dropped`, then is removed
from the placement list one tick later, with no command sent at any
point. -/
theorem c9_theorem :
    (∀ (ks : KeyspaceR) (opt : Option OperationR) (r : RangeR)
        (p : PlacementR) (ri : Option RemoteStateN),
      placementDecision ks opt r
          { p with stateCurrent := PlacementStateN.PsMissing } ri =
        pdCur PlacementStateN.PsDropped) ∧
    (∀ d : PlacementStateN,
      actionFor PlacementStateN.PsMissing d = none ∧
      actionFor PlacementStateN.PsDropped d = none) ∧
    (∀ (ks : KeyspaceR) (opt : Option OperationR) (r : RangeR)
        (p : PlacementR) (ri : Option RemoteStateN),
      placementDecision ks opt r
          { p with stateCurrent := PlacementStateN.PsDropped } ri =
        pdDestroy) ∧
    (((statesOf initMissing (ticks 3)).map pView) =
        [[[("a", PlacementStateN.PsActive, PlacementStateN.PsActive)]],
         [[("a", PlacementStateN.PsMissing, PlacementStateN.PsActive)]],
         [[("a", PlacementStateN.PsDropped, PlacementStateN.PsActive)]],
         [[]]] ∧
      (runEvents initMissing (ticks 3)).cmdLog = []) := by
  refine ⟨fun ks opt r p ri => rfl, fun d => ?_, fun ks opt r p ri => rfl,
    by decide⟩
  cases d <;> exact ⟨rfl, rfl⟩
